import Mathlib

/-!
# Verification of the AzureAIArchitect service-detection core

Shallow embedding of the detection engine (`src/utils/azureServicesDatabase.ts`),
the multi-strategy aggregator's merge/metric step (`src/utils/manualPolicyLoader.ts`,
`AdvancedPatternRecognition`), and the policy rule engine / fix application
(`src/agents/generator.ts`).  Strings are modelled as Lean `String`s (the inputs
are ASCII), JavaScript numbers as exact rationals (the computable fraction
type `Q` below, interpreted into Mathlib's `ℚ` by `Q.toRat`), and the regular
expressions of the catalog as token lists over a small language (literal
character, `\s*`, `\b`) that covers every pattern occurring in the source.
-/

namespace AzureArch

/-! ## String primitives (JS `toLowerCase`, `includes`, `indexOf`) -/

/-- ASCII lower-casing of a character, as JS `toLowerCase` acts on the
catalog/diagram strings (all ASCII). -/
def lowerChar (c : Char) : Char := c.toLower

/-- JS `String.prototype.toLowerCase` on ASCII strings. -/
def lowerStr (s : String) : String := ⟨s.data.map lowerChar⟩

/-- `needle` is a prefix of `hay` (character-wise equality). -/
def startsWithChars : List Char → List Char → Bool
  | [], _ => true
  | _ :: _, [] => false
  | a :: as, b :: bs => a == b && startsWithChars as bs

/-- `needle` occurs as a contiguous substring of `hay`. -/
def listContainsSub (hay needle : List Char) : Bool :=
  match hay with
  | [] => needle.isEmpty
  | _ :: t => startsWithChars needle hay || listContainsSub t needle

/-- JS `hay.includes(needle)`. -/
def strIncludes (hay needle : String) : Bool :=
  listContainsSub hay.data needle.data

/-- Index (in characters) of the first occurrence of `needle` in `hay`,
or `-1`; JS `String.prototype.indexOf`. -/
def listIndexOfAux (i : Int) (hay needle : List Char) : Int :=
  if startsWithChars needle hay then i
  else
    match hay with
    | [] => -1
    | _ :: t => listIndexOfAux (i + 1) t needle

def strIndexOf (hay needle : String) : Int :=
  listIndexOfAux 0 hay.data needle.data

/-! ## Exact rational numbers

JavaScript numbers in the engine's arithmetic (confidence weights,
multipliers, thresholds) are modelled exactly.  `Q` is a reduced fraction
`num / (dpred + 1)`; storing the predecessor of the denominator makes every
value's denominator positive by construction.  All operations normalize via
`Nat.gcd`, so structurally equal terms are exactly the equal values.
`Q.toRat` maps into Mathlib's `ℚ` for the algebraic theorems. -/

structure Q where
  num : Int
  dpred : Nat
deriving DecidableEq, Repr

namespace Q

/-- The (always positive) denominator. -/
def den (q : Q) : Nat := q.dpred + 1

/-- Normalized fraction `n / d` for `d ≠ 0` (`d = 0` is unreachable in the
engine and mapped to `0`). -/
def mkQ (n : Int) (d : Nat) : Q :=
  if d = 0 then ⟨0, 0⟩
  else
    let g := Nat.gcd n.natAbs d
    ⟨n / g, d / g - 1⟩

/-- `n / d` with an integer denominator (used for division). -/
def mkQI (n d : Int) : Q :=
  if d < 0 then mkQ (-n) (-d).toNat else mkQ n d.toNat

protected def add (a b : Q) : Q :=
  mkQ (a.num * b.den + b.num * a.den) (a.den * b.den)

protected def mul (a b : Q) : Q := mkQ (a.num * b.num) (a.den * b.den)

protected def neg (a : Q) : Q := ⟨-a.num, a.dpred⟩

protected def sub (a b : Q) : Q := a.add b.neg

protected def div (a b : Q) : Q := mkQI (a.num * b.den) ((a.den : Int) * b.num)

instance : Add Q := ⟨Q.add⟩

instance : Mul Q := ⟨Q.mul⟩

instance : Neg Q := ⟨Q.neg⟩

instance : Sub Q := ⟨Q.sub⟩

instance : Div Q := ⟨Q.div⟩

instance : LE Q := ⟨fun a b => a.num * (b.den : Int) ≤ b.num * (a.den : Int)⟩

instance : LT Q := ⟨fun a b => a.num * (b.den : Int) < b.num * (a.den : Int)⟩

instance (a b : Q) : Decidable (a ≤ b) :=
  inferInstanceAs (Decidable (a.num * (b.den : Int) ≤ b.num * (a.den : Int)))

instance (a b : Q) : Decidable (a < b) :=
  inferInstanceAs (Decidable (a.num * (b.den : Int) < b.num * (a.den : Int)))

/-- JS `Math.min` on (`NaN`-free) numbers. -/
instance : Min Q := ⟨fun a b => if a ≤ b then a else b⟩

instance (n : Nat) : OfNat Q n := ⟨⟨n, 0⟩⟩

instance : NatCast Q := ⟨fun n => ⟨n, 0⟩⟩

/-- Decimal literals such as `0.95`. -/
instance : OfScientific Q :=
  ⟨fun m b e => if b then mkQ m (10 ^ e) else ⟨(m : Int) * 10 ^ e, 0⟩⟩

/-- `10 ^ k` as a (normalized) value. -/
def pow10 (k : Nat) : Q := ⟨(10 : Int) ^ k, 0⟩

/-- Interpretation into Mathlib's rationals. -/
def toRat (q : Q) : ℚ := (q.num : ℚ) / (q.den : ℚ)

end Q

/-! ## Mini regular expressions

Every `textPatterns` entry in the catalog is (with the `i` flag) a sequence of
literal characters, `\s*` gaps and `\b` word-boundary assertions.  We embed
them as token lists and implement JS `String.prototype.match`'s leftmost-match
search.  `\s*` is greedy; since in every catalog pattern it is followed by a
non-space literal, greedy matching is equivalent to JS backtracking search. -/

inductive RTok where
  | ch (c : Char)
  | ws
  | wb
deriving DecidableEq, Repr

/-- JS `\w` character class (`[A-Za-z0-9_]`). -/
def isWordChar (c : Char) : Bool :=
  ('a' ≤ c && c ≤ 'z') || ('A' ≤ c && c ≤ 'Z') || ('0' ≤ c && c ≤ '9') || c == '_'

/-- JS `\s` restricted to the whitespace occurring in the inputs. -/
def isSpaceChar (c : Char) : Bool :=
  c == ' ' || c == '\t' || c == '\n' || c == '\r'

/-- A word boundary lies between `prev` and `next` (`none` = string edge). -/
def isBoundary (prev next : Option Char) : Bool :=
  (match prev with | some c => isWordChar c | none => false)
    != (match next with | some c => isWordChar c | none => false)

/-- Try to match the token list at the current position; `prev` is the
character immediately before the position.  Returns the matched characters. -/
def matchAt : List RTok → Option Char → List Char → Option (List Char)
  | [], _, _ => some []
  | RTok.ch _ :: _, _, [] => none
  | RTok.ch c :: ts, _, x :: xs =>
      if lowerChar x == lowerChar c then (matchAt ts (some x) xs).map (x :: ·) else none
  | RTok.ws :: ts, prev, xs =>
      let sp := xs.takeWhile isSpaceChar
      let rest := xs.dropWhile isSpaceChar
      let prev' := match sp.getLast? with | some c => some c | none => prev
      (matchAt ts prev' rest).map (sp ++ ·)
  | RTok.wb :: ts, prev, xs =>
      if isBoundary prev xs.head? then matchAt ts prev xs else none

/-- Leftmost match of the pattern in the text, as JS `text.match(re)[0]`. -/
def firstMatchAux (toks : List RTok) : Option Char → List Char → Option (List Char)
  | prev, [] => matchAt toks prev []
  | prev, x :: xs =>
      match matchAt toks prev (x :: xs) with
      | some m => some m
      | none => firstMatchAux toks (some x) xs

def reMatch (toks : List RTok) (text : String) : Option String :=
  (firstMatchAux toks none text.data).map (fun l => ⟨l⟩)

/-- Literal characters of a pattern. -/
def lits (s : String) : List RTok := s.data.map RTok.ch

/-- `/a\s*b/i`. -/
def pw (a b : String) : List RTok := lits a ++ [RTok.ws] ++ lits b

/-- `/a\s*b\s*c/i`. -/
def pw3 (a b c : String) : List RTok :=
  lits a ++ [RTok.ws] ++ lits b ++ [RTok.ws] ++ lits c

/-- `/\bs\b/i`. -/
def pb (s : String) : List RTok := [RTok.wb] ++ lits s ++ [RTok.wb]

/-! ## Service catalog (`AzureServicesDatabase.services`) -/

structure ConfidenceWeights where
  exact : Q
  keyword : Q
  pattern : Q
deriving DecidableEq, Repr

structure ServiceProperties where
  tier : Option (List String) := none
  sku : Option (List String) := none
  defaultLocation : Option String := none
  pricing : Option (List String) := none
deriving DecidableEq, Repr

structure ServiceDependencies where
  commonlyUsedWith : List String
  requiredWith : List String
deriving DecidableEq, Repr

structure AzureServiceDefinition where
  id : String
  displayName : String
  category : String
  resourceType : String
  alternativeResourceTypes : List String
  keywords : List String
  aliases : List String
  commonNames : List String
  abbreviations : List String
  iconPatterns : List String
  textPatterns : List (List RTok)
  properties : ServiceProperties
  dependencies : ServiceDependencies
  confidence : ConfidenceWeights
deriving DecidableEq, Repr

def virtualMachinesDef : AzureServiceDefinition :=
  { id := "virtual-machines"
    displayName := "Virtual Machines"
    category := "Compute"
    resourceType := "Microsoft.Compute/virtualMachines"
    alternativeResourceTypes := ["Microsoft.Compute/VirtualMachines", "VM"]
    keywords := ["virtual machine", "vm", "virtual machines", "compute", "server", "instance"]
    aliases := ["vm", "vms", "azure vm", "virtual machine", "compute instance"]
    commonNames := ["VM", "Virtual Machine", "Azure VM", "Compute VM", "Windows VM", "Linux VM"]
    abbreviations := ["vm", "vms", "avm"]
    iconPatterns := ["vm", "virtual-machine", "computer", "server"]
    textPatterns :=
      [pb "vm", pw "virtual" "machine", pw "compute" "instance",
       pw "azure" "vm", pw "windows" "vm", pw "linux" "vm"]
    properties :=
      { tier := some ["Basic", "Standard", "Premium"]
        sku := some ["A1", "D2s_v3", "B1s", "F2s_v2"]
        pricing := some ["Pay-as-you-go", "Reserved"] }
    dependencies :=
      { commonlyUsedWith := ["virtual-network", "storage-account", "network-security-group"]
        requiredWith := ["virtual-network"] }
    confidence := { exact := 1.0, keyword := 0.95, pattern := 0.9 } }

def appServiceDef : AzureServiceDefinition :=
  { id := "app-service"
    displayName := "App Service"
    category := "Compute"
    resourceType := "Microsoft.Web/sites"
    alternativeResourceTypes := ["Microsoft.Web/Sites", "Microsoft.Web/serverfarms"]
    keywords := ["app service", "web app", "webapp", "web application", "api app", "mobile app"]
    aliases := ["web app", "webapp", "app service", "azure web app", "web application"]
    commonNames := ["App Service", "Web App", "API App", "Mobile App", "Function App"]
    abbreviations := ["as", "wa", "webapp"]
    iconPatterns := ["web-app", "app-service", "globe", "web"]
    textPatterns :=
      [pw "app" "service", pw "web" "app", pw "web" "application",
       pw "api" "app", pw "mobile" "app", lits "webapp"]
    properties :=
      { tier := some ["Free", "Shared", "Basic", "Standard", "Premium", "Isolated"]
        sku := some ["F1", "D1", "B1", "S1", "P1v2", "I1"]
        pricing := some ["Consumption", "App Service Plan"] }
    dependencies :=
      { commonlyUsedWith := ["sql-database", "storage-account", "application-insights"]
        requiredWith := [] }
    confidence := { exact := 1.0, keyword := 0.95, pattern := 0.9 } }

def azureFunctionsDef : AzureServiceDefinition :=
  { id := "azure-functions"
    displayName := "Azure Functions"
    category := "Compute"
    resourceType := "Microsoft.Web/sites"
    alternativeResourceTypes := ["Microsoft.Web/Sites/functions"]
    keywords := ["azure functions", "function app", "functions", "serverless", "faas"]
    aliases := ["functions", "function app", "azure functions", "serverless functions"]
    commonNames := ["Azure Functions", "Function App", "Functions", "Serverless Functions"]
    abbreviations := ["af", "func", "functions"]
    iconPatterns := ["function", "lambda", "code", "serverless"]
    textPatterns :=
      [pw "azure" "functions", pw "function" "app", pb "functions",
       lits "serverless", lits "faas"]
    properties :=
      { tier := some ["Consumption", "Premium", "Dedicated"]
        pricing := some ["Pay-per-execution", "Premium Plan"] }
    dependencies :=
      { commonlyUsedWith := ["storage-account", "application-insights", "key-vault"]
        requiredWith := ["storage-account"] }
    confidence := { exact := 1.0, keyword := 0.95, pattern := 0.9 } }

def sqlDatabaseDef : AzureServiceDefinition :=
  { id := "sql-database"
    displayName := "SQL Database"
    category := "Database"
    resourceType := "Microsoft.Sql/servers/databases"
    alternativeResourceTypes := ["Microsoft.Sql/servers", "Microsoft.Sql/databases"]
    keywords := ["sql database", "azure sql", "sql db", "database", "relational database", "mssql"]
    aliases := ["sql db", "azure sql", "sql database", "azure sql database"]
    commonNames := ["SQL Database", "Azure SQL", "SQL DB", "Azure SQL Database"]
    abbreviations := ["sqldb", "sql", "db"]
    iconPatterns := ["database", "sql", "data"]
    textPatterns :=
      [pw "sql" "database", pw "azure" "sql", pw "sql" "db",
       pb "sqldb", lits "mssql", pw "relational" "database"]
    properties :=
      { tier := some ["Basic", "Standard", "Premium", "General Purpose", "Business Critical"]
        sku := some ["Basic", "S0", "S1", "P1", "GP_Gen5_2"]
        pricing := some ["DTU", "vCore"] }
    dependencies :=
      { commonlyUsedWith := ["app-service", "virtual-machines", "key-vault"]
        requiredWith := [] }
    confidence := { exact := 1.0, keyword := 0.95, pattern := 0.9 } }

def cosmosDbDef : AzureServiceDefinition :=
  { id := "cosmos-db"
    displayName := "Cosmos DB"
    category := "Database"
    resourceType := "Microsoft.DocumentDB/databaseAccounts"
    alternativeResourceTypes := ["Microsoft.DocumentDB/accounts"]
    keywords := ["cosmos db", "cosmosdb", "document db", "nosql", "mongodb", "cassandra", "graph db"]
    aliases := ["cosmos", "cosmosdb", "document db", "azure cosmos"]
    commonNames := ["Cosmos DB", "Azure Cosmos DB", "DocumentDB", "NoSQL Database"]
    abbreviations := ["cosmos", "cdb", "docdb"]
    iconPatterns := ["cosmos", "database", "document", "nosql"]
    textPatterns :=
      [pw "cosmos" "db", lits "cosmosdb", pw "document" "db",
       pw "azure" "cosmos", lits "nosql", pw "mongodb" "api"]
    properties :=
      { tier := some ["Serverless", "Provisioned"]
        sku := some ["Standard"]
        pricing := some ["Request Units", "Serverless"] }
    dependencies :=
      { commonlyUsedWith := ["app-service", "azure-functions", "application-insights"]
        requiredWith := [] }
    confidence := { exact := 1.0, keyword := 0.95, pattern := 0.9 } }

def storageAccountDef : AzureServiceDefinition :=
  { id := "storage-account"
    displayName := "Storage Account"
    category := "Storage"
    resourceType := "Microsoft.Storage/storageAccounts"
    alternativeResourceTypes := ["Microsoft.Storage/StorageAccounts"]
    keywords := ["storage account", "blob storage", "file storage", "queue storage",
                 "table storage", "azure storage"]
    aliases := ["storage", "blob", "azure storage", "storage account"]
    commonNames := ["Storage Account", "Blob Storage", "Azure Storage", "File Storage"]
    abbreviations := ["sa", "storage", "blob"]
    iconPatterns := ["storage", "blob", "file", "data"]
    textPatterns :=
      [pw "storage" "account", pw "blob" "storage", pw "azure" "storage",
       pw "file" "storage", pw "queue" "storage", pw "table" "storage"]
    properties :=
      { tier := some ["Standard", "Premium"]
        sku := some ["Standard_LRS", "Standard_GRS", "Premium_LRS"]
        pricing := some ["Hot", "Cool", "Archive"] }
    dependencies :=
      { commonlyUsedWith := ["app-service", "virtual-machines", "azure-functions"]
        requiredWith := [] }
    confidence := { exact := 1.0, keyword := 0.95, pattern := 0.9 } }

def virtualNetworkDef : AzureServiceDefinition :=
  { id := "virtual-network"
    displayName := "Virtual Network"
    category := "Networking"
    resourceType := "Microsoft.Network/virtualNetworks"
    alternativeResourceTypes := ["Microsoft.Network/VirtualNetworks"]
    keywords := ["virtual network", "vnet", "network", "subnet", "vpc"]
    aliases := ["vnet", "virtual network", "azure vnet", "network"]
    commonNames := ["Virtual Network", "VNet", "Azure VNet", "Network"]
    abbreviations := ["vnet", "vn", "net"]
    iconPatterns := ["network", "vnet", "cloud-network"]
    textPatterns :=
      [pw "virtual" "network", pb "vnet", pw "azure" "vnet", pb "vpc", lits "subnet"]
    properties :=
      { tier := some ["Standard"]
        pricing := some ["Free", "Gateway charges apply"] }
    dependencies :=
      { commonlyUsedWith := ["virtual-machines", "app-service", "load-balancer"]
        requiredWith := [] }
    confidence := { exact := 1.0, keyword := 0.95, pattern := 0.9 } }

def loadBalancerDef : AzureServiceDefinition :=
  { id := "load-balancer"
    displayName := "Load Balancer"
    category := "Networking"
    resourceType := "Microsoft.Network/loadBalancers"
    alternativeResourceTypes := ["Microsoft.Network/LoadBalancers"]
    keywords := ["load balancer", "lb", "application gateway", "traffic manager", "front door"]
    aliases := ["lb", "load balancer", "alb", "application gateway"]
    commonNames := ["Load Balancer", "Application Gateway", "Traffic Manager", "Front Door"]
    abbreviations := ["lb", "alb", "ag", "tm"]
    iconPatterns := ["load-balancer", "gateway", "traffic"]
    textPatterns :=
      [pw "load" "balancer", pb "lb", pw "application" "gateway",
       pw "traffic" "manager", pw "front" "door"]
    properties :=
      { tier := some ["Basic", "Standard"]
        sku := some ["Basic", "Standard", "WAF_v2"]
        pricing := some ["Fixed", "Consumption"] }
    dependencies :=
      { commonlyUsedWith := ["virtual-machines", "app-service", "virtual-network"]
        requiredWith := [] }
    confidence := { exact := 1.0, keyword := 0.95, pattern := 0.9 } }

def keyVaultDef : AzureServiceDefinition :=
  { id := "key-vault"
    displayName := "Key Vault"
    category := "Security"
    resourceType := "Microsoft.KeyVault/vaults"
    alternativeResourceTypes := ["Microsoft.KeyVault/Vaults"]
    keywords := ["key vault", "keyvault", "secrets", "keys", "certificates", "hsm"]
    aliases := ["key vault", "keyvault", "vault", "azure key vault"]
    commonNames := ["Key Vault", "Azure Key Vault", "Vault", "Secrets Vault"]
    abbreviations := ["kv", "vault", "akv"]
    iconPatterns := ["key", "vault", "security", "lock"]
    textPatterns :=
      [pw "key" "vault", lits "keyvault", pw "azure" "vault", pw "secrets" "vault", pb "hsm"]
    properties :=
      { tier := some ["Standard", "Premium"]
        pricing := some ["Standard", "Premium HSM"] }
    dependencies :=
      { commonlyUsedWith := ["app-service", "azure-functions", "virtual-machines"]
        requiredWith := [] }
    confidence := { exact := 1.0, keyword := 0.95, pattern := 0.9 } }

def applicationInsightsDef : AzureServiceDefinition :=
  { id := "application-insights"
    displayName := "Application Insights"
    category := "Monitoring"
    resourceType := "Microsoft.Insights/components"
    alternativeResourceTypes := ["Microsoft.Insights/Components"]
    keywords := ["application insights", "app insights", "monitoring", "telemetry", "apm"]
    aliases := ["app insights", "application insights", "insights", "monitoring"]
    commonNames := ["Application Insights", "App Insights", "Insights", "APM"]
    abbreviations := ["ai", "appinsights", "insights"]
    iconPatterns := ["insights", "monitoring", "analytics", "chart"]
    textPatterns :=
      [pw "application" "insights", pw "app" "insights", pb "insights",
       lits "telemetry", pb "apm"]
    properties :=
      { tier := some ["Standard"]
        pricing := some ["Pay-as-you-go", "Commitment Tiers"] }
    dependencies :=
      { commonlyUsedWith := ["app-service", "azure-functions", "virtual-machines"]
        requiredWith := [] }
    confidence := { exact := 1.0, keyword := 0.95, pattern := 0.9 } }

def containerRegistryDef : AzureServiceDefinition :=
  { id := "container-registry"
    displayName := "Container Registry"
    category := "Containers"
    resourceType := "Microsoft.ContainerRegistry/registries"
    alternativeResourceTypes := ["Microsoft.ContainerRegistry/Registries"]
    keywords := ["container registry", "acr", "docker registry", "container images"]
    aliases := ["acr", "container registry", "docker registry"]
    commonNames := ["Container Registry", "ACR", "Azure Container Registry"]
    abbreviations := ["acr", "cr"]
    iconPatterns := ["container", "docker", "registry"]
    textPatterns :=
      [pw "container" "registry", pb "acr", pw "docker" "registry",
       pw3 "azure" "container" "registry"]
    properties :=
      { tier := some ["Basic", "Standard", "Premium"]
        pricing := some ["Per GB stored", "Per operation"] }
    dependencies :=
      { commonlyUsedWith := ["kubernetes-service", "container-instances", "app-service"]
        requiredWith := [] }
    confidence := { exact := 1.0, keyword := 0.95, pattern := 0.9 } }

def kubernetesServiceDef : AzureServiceDefinition :=
  { id := "kubernetes-service"
    displayName := "Kubernetes Service"
    category := "Containers"
    resourceType := "Microsoft.ContainerService/managedClusters"
    alternativeResourceTypes := ["Microsoft.ContainerService/ManagedClusters"]
    keywords := ["kubernetes", "aks", "k8s", "container orchestration", "managed kubernetes"]
    aliases := ["aks", "kubernetes", "k8s", "azure kubernetes"]
    commonNames := ["AKS", "Kubernetes Service", "Azure Kubernetes Service", "K8s"]
    abbreviations := ["aks", "k8s"]
    iconPatterns := ["kubernetes", "k8s", "container", "orchestration"]
    textPatterns :=
      [lits "kubernetes", pb "aks", pb "k8s", pw "azure" "kubernetes", pw "managed" "kubernetes"]
    properties :=
      { tier := some ["Free", "Standard"]
        pricing := some ["Cluster management free", "Node pool charges"] }
    dependencies :=
      { commonlyUsedWith := ["container-registry", "virtual-network", "storage-account"]
        requiredWith := [] }
    confidence := { exact := 1.0, keyword := 0.95, pattern := 0.9 } }

namespace AzureServicesDatabase

/-- The static catalog, in source order. -/
def services : List AzureServiceDefinition :=
  [virtualMachinesDef, appServiceDef, azureFunctionsDef, sqlDatabaseDef,
   cosmosDbDef, storageAccountDef, virtualNetworkDef, loadBalancerDef,
   keyVaultDef, applicationInsightsDef, containerRegistryDef, kubernetesServiceDef]

def getServiceById (id : String) : Option AzureServiceDefinition :=
  services.find? (fun s => s.id == id)

end AzureServicesDatabase

/-! ## Primary detector (`AzureServicesDatabase.detectService`) -/

inductive MatchType where
  | exact
  | keyword
  | pattern
  | visual
deriving DecidableEq, Repr

structure DetectServiceResult where
  service : AzureServiceDefinition
  confidence : Q
  matchType : MatchType
  matchedText : Option String := none
deriving DecidableEq, Repr

structure ContextCheck where
  isValid : Bool
  confidenceMultiplier : Q
deriving DecidableEq, Repr

/-- The fixed blocklist of non-Azure indicators in `detectService`. -/
def nonAzureKeywords : List String :=
  ["aws", "amazon", "ec2", "s3", "lambda", "rds", "dynamodb", "cloudformation",
   "gcp", "google cloud", "compute engine", "cloud storage", "bigquery",
   "cloud functions", "firestore", "pub/sub", "kubernetes engine", "gke",
   "on-premise", "on-premises", "vmware", "openstack", "alibaba cloud", "oracle cloud"]

def hasNonAzureIndicators (text : String) : Bool :=
  nonAzureKeywords.any (fun keyword => strIncludes (lowerStr text) (lowerStr keyword))

/-- `validatePatternContext` for a regex match. -/
def validatePatternContext (mtch fullText : String) (service : AzureServiceDefinition) :
    ContextCheck :=
  let lowerText := lowerStr fullText
  let azureContexts := ["azure", "microsoft", "cloud", "bicep", "arm template"]
  let hasAzureContext := azureContexts.any (fun context => strIncludes lowerText context)
  let hasServiceContext := service.keywords.any (fun keyword =>
    strIncludes lowerText (lowerStr keyword) && lowerStr keyword != lowerStr mtch)
  if hasAzureContext then { isValid := true, confidenceMultiplier := 1.0 }
  else if hasServiceContext then { isValid := true, confidenceMultiplier := 0.8 }
  else { isValid := false, confidenceMultiplier := 0.3 }

/-- `validateKeywordContext`: generic-term and negation checks. -/
def validateKeywordContext (keyword fullText : String) (service : AzureServiceDefinition) :
    ContextCheck :=
  let lowerText := lowerStr fullText
  let lowerKeyword := lowerStr keyword
  let genericTerms := ["database", "storage", "server", "application", "network",
                       "web application", "file storage"]
  if genericTerms.contains lowerKeyword &&
      !(["azure", "microsoft", lowerStr service.resourceType].any
          (fun context => strIncludes lowerText context)) then
    { isValid := false, confidenceMultiplier := 0.2 }
  else
    let negativeContexts := ["not", "without", "instead of", "rather than", "except"]
    let hasNegativeContext := negativeContexts.any (fun negative =>
      let keywordIndex := strIndexOf lowerText lowerKeyword
      let negativeIndex := strIndexOf lowerText negative
      negativeIndex ≥ 0 && (keywordIndex - negativeIndex).natAbs < 50)
    if hasNegativeContext then { isValid := false, confidenceMultiplier := 0.1 }
    else { isValid := true, confidenceMultiplier := 1.0 }

/-- `validateAliasContext`: abbreviations need strong context. -/
def validateAliasContext (al fullText : String) (service : AzureServiceDefinition) :
    ContextCheck :=
  let lowerText := lowerStr fullText
  if service.abbreviations.contains al &&
      !(["azure", "microsoft", lowerStr service.displayName].any
          (fun context => strIncludes lowerText context)) then
    { isValid := false, confidenceMultiplier := 0.5 }
  else { isValid := true, confidenceMultiplier := 1.0 }

/-- The pattern tier: first regex that matches and validates (a pattern
that matches but fails validation falls through to the next pattern). -/
def firstValidPattern (text : String) (service : AzureServiceDefinition) :
    List (List RTok) → Option (String × Q)
  | [] => none
  | p :: ps =>
      match reMatch p text with
      | some m =>
          let check := validatePatternContext m text service
          if check.isValid then some (m, check.confidenceMultiplier)
          else firstValidPattern text service ps
      | none => firstValidPattern text service ps

/-- The keyword tier: first keyword contained in the lowercased text that
passes context validation. -/
def firstValidKeyword (text : String) (service : AzureServiceDefinition) :
    List String → Option (String × Q)
  | [] => none
  | kw :: kws =>
      if strIncludes (lowerStr text) (lowerStr kw) then
        let check := validateKeywordContext kw text service
        if check.isValid then some (kw, check.confidenceMultiplier)
        else firstValidKeyword text service kws
      else firstValidKeyword text service kws

/-- The alias tier over `aliases ++ commonNames ++ abbreviations`. -/
def firstValidAlias (text : String) (service : AzureServiceDefinition) :
    List String → Option (String × Q)
  | [] => none
  | a :: as =>
      if strIncludes (lowerStr text) (lowerStr a) then
        let check := validateAliasContext a text service
        if check.isValid then some (a, check.confidenceMultiplier)
        else firstValidAlias text service as
      else firstValidAlias text service as

/-- The per-service body of `detectService`'s loop: the first tier
(exact, pattern, keyword, alias — in that order) that produces a match. -/
def detectOne (text : String) (service : AzureServiceDefinition) :
    Option DetectServiceResult :=
  let normalizedText := lowerStr text
  if strIncludes normalizedText (lowerStr service.resourceType) ||
      service.alternativeResourceTypes.any
        (fun type' => strIncludes normalizedText (lowerStr type')) then
    some { service := service, confidence := service.confidence.exact,
           matchType := .exact, matchedText := some service.resourceType }
  else
    match firstValidPattern text service service.textPatterns with
    | some (m, mult) =>
        some { service := service, confidence := service.confidence.pattern * mult,
               matchType := .pattern, matchedText := some m }
    | none =>
        match firstValidKeyword text service service.keywords with
        | some (kw, mult) =>
            some { service := service, confidence := service.confidence.keyword * mult,
                   matchType := .keyword, matchedText := some kw }
        | none =>
            match firstValidAlias text service
                (service.aliases ++ service.commonNames ++ service.abbreviations) with
            | some (a, mult) =>
                some { service := service,
                       confidence := service.confidence.keyword * 0.9 * mult,
                       matchType := .keyword, matchedText := some a }
            | none => none

/-- Stable insertion into a confidence-descending list (the JS
`sort((a, b) => b.confidence - a.confidence)` order). -/
def insertByConfDesc (x : DetectServiceResult) :
    List DetectServiceResult → List DetectServiceResult
  | [] => [x]
  | y :: ys =>
      if y.confidence < x.confidence then x :: y :: ys
      else y :: insertByConfDesc x ys

def sortByConfDesc (l : List DetectServiceResult) : List DetectServiceResult :=
  l.foldl (fun acc x => insertByConfDesc x acc) []

/-- The `findIndex`-based duplicate filter: keep a result exactly when no
earlier result carries the same service id (`seen` accumulates the ids
already emitted). -/
def dedupByServiceIdAux (seen : List String) :
    List DetectServiceResult → List DetectServiceResult
  | [] => []
  | x :: xs =>
      if seen.contains x.service.id then dedupByServiceIdAux seen xs
      else x :: dedupByServiceIdAux (x.service.id :: seen) xs

def dedupByServiceId (l : List DetectServiceResult) : List DetectServiceResult :=
  dedupByServiceIdAux [] l

/-- `AzureServicesDatabase.detectService` (text path; the optional
`imageAnalysis` argument is unused in the source). -/
def detectService (text : String) : List DetectServiceResult :=
  if hasNonAzureIndicators text then []
  else dedupByServiceId (sortByConfDesc
    (AzureServicesDatabase.services.filterMap (detectOne text)))

/-! ## Multi-strategy aggregator (`AdvancedPatternRecognition`):
merge step and accuracy metrics -/

inductive EvidenceType where
  | text
  | visual
  | structural
  | contextual
deriving DecidableEq, Repr

structure Evidence where
  type : EvidenceType
  source : String
  confidence : Q
  details : String
deriving DecidableEq, Repr

structure Position where
  x : Q
  y : Q
  width : Q
  height : Q
deriving DecidableEq, Repr

structure DetectionResult where
  service : AzureServiceDefinition
  confidence : Q
  evidence : List Evidence
  position : Option Position := none
deriving DecidableEq, Repr

/-- Insertion-order-preserving update of a JS `Map` modelled as an
association list: `Map.set` keeps an existing key's position and appends
new keys at the end. -/
def mapSet (m : List (String × DetectionResult)) (k : String) (v : DetectionResult) :
    List (String × DetectionResult) :=
  match m with
  | [] => [(k, v)]
  | (k', v') :: rest => if k' = k then (k, v) :: rest else (k', v') :: mapSet rest k v

def mapGet (m : List (String × DetectionResult)) (k : String) : Option DetectionResult :=
  match m with
  | [] => none
  | (k', v') :: rest => if k' = k then some v' else mapGet rest k

/-- Combination of two same-service results in `mergeAndRankResults`. -/
def combineResults (existing result : DetectionResult) : DetectionResult :=
  { service := result.service
    confidence := min (existing.confidence + result.confidence * 0.5) 1.0
    evidence := existing.evidence ++ result.evidence
    position := existing.position <|> result.position }

/-- One iteration of the merge loop over `results`. -/
def mergeStep (m : List (String × DetectionResult)) (result : DetectionResult) :
    List (String × DetectionResult) :=
  match mapGet m result.service.id with
  | some existing => mapSet m result.service.id (combineResults existing result)
  | none => mapSet m result.service.id result

/-- The value the merge loop associates to one service id: the results
carrying that id, combined left to right (`none` when the id never occurs). -/
def mergeChain (acc : Option DetectionResult) (l : List DetectionResult) :
    Option DetectionResult :=
  l.foldl (fun a r =>
    match a with
    | some existing => some (combineResults existing r)
    | none => some r) acc

/-- Stable insertion for the aggregator's confidence-descending sort. -/
def insertDRByConfDesc (x : DetectionResult) :
    List DetectionResult → List DetectionResult
  | [] => [x]
  | y :: ys =>
      if y.confidence < x.confidence then x :: y :: ys
      else y :: insertDRByConfDesc x ys

def sortDRByConfDesc (l : List DetectionResult) : List DetectionResult :=
  l.foldl (fun acc x => insertDRByConfDesc x acc) []

/-- `AdvancedPatternRecognition.mergeAndRankResults`. -/
def mergeAndRankResults (results : List DetectionResult) : List DetectionResult :=
  let serviceMap := results.foldl mergeStep []
  ((serviceMap.map Prod.snd) |> sortDRByConfDesc).filter (fun result => 0.5 < result.confidence)

structure AccuracyMetrics where
  overallConfidence : Q
  highConfidenceCount : ℕ
  mediumConfidenceCount : ℕ
  lowConfidenceCount : ℕ
  accuracyScore : Q
deriving DecidableEq, Repr

/-- `AdvancedPatternRecognition.calculateAccuracyMetrics`. -/
def calculateAccuracyMetrics (results : List DetectionResult) : AccuracyMetrics :=
  if results.length = 0 then
    { overallConfidence := 0, highConfidenceCount := 0, mediumConfidenceCount := 0,
      lowConfidenceCount := 0, accuracyScore := 0 }
  else
    let totalConfidence := results.foldl (fun sum result => sum + result.confidence) (0 : Q)
    let overallConfidence := totalConfidence / (results.length : Q)
    let highConfidenceCount := (results.filter (fun r => r.confidence ≥ 0.9)).length
    let mediumConfidenceCount :=
      (results.filter (fun r => r.confidence ≥ 0.7 && r.confidence < 0.9)).length
    let lowConfidenceCount := (results.filter (fun r => r.confidence < 0.7)).length
    { overallConfidence := overallConfidence
      highConfidenceCount := highConfidenceCount
      mediumConfidenceCount := mediumConfidenceCount
      lowConfidenceCount := lowConfidenceCount
      accuracyScore :=
        ((highConfidenceCount : Q) * 1.0 + (mediumConfidenceCount : Q) * 0.8 +
          (lowConfidenceCount : Q) * 0.5) / (results.length : Q) }

/-! ## Policy rule engine (`generator.ts`)

JavaScript values of the resource property bags and policy documents.
`undefined` stands for an absent value (`undefined`).  Arrays and plain objects
are the only container shapes JSON produces; equality between a policy's
expected value and a resource value at container shape is JS reference
equality, and the two are always separately constructed objects, so it is
constantly `false`. -/

inductive JValue where
  | undefined
  | null
  | bool (b : Bool)
  | num (n : Q)
  | str (s : String)
  | arr (elems : List JValue)
  | obj (fields : List (String × JValue))

/-- JS truthiness (our value grammar contains no `NaN`). -/
def truthy : JValue → Bool
  | .undefined => false
  | .null => false
  | .bool b => b
  | .num n => !(n == 0)
  | .str s => !(s == "")
  | .arr _ => true
  | .obj _ => true

def isObjLike : JValue → Bool
  | .obj _ => true
  | .arr _ => true
  | _ => false

/-- First binding of `k` (JS objects have unique keys). -/
def lookupField (k : String) : List (String × JValue) → Option JValue
  | [] => none
  | (k', v) :: rest => if k' = k then some v else lookupField k rest

/-- Canonical numeric array index ("0", "17", … but not "00" or "+1"). -/
def parseIndex (s : String) : Option ℕ :=
  match s.toNat? with
  | some n => if toString n = s then some n else none
  | none => none

/-- Reading `es[key]` on an array value. -/
def arrGet (es : List JValue) (key : String) : JValue :=
  if key = "length" then .num es.length
  else
    match parseIndex key with
    | some i => es.getD i .undefined
    | none => .undefined

/-- `getPropertyValue`'s traversal loop over the already-split dot path:
descend while the current value is a truthy `typeof 'object'` value,
otherwise yield `undefined`. -/
def getPropParts : JValue → List String → JValue
  | v, [] => v
  | .obj fs, p :: ps => getPropParts ((lookupField p fs).getD .undefined) ps
  | .arr es, p :: ps => getPropParts (arrGet es p) ps
  | _, _ :: _ => .undefined

/-- JS `propertyPath.split('.')`: split at every dot; `""` yields `[""]`. -/
def splitDotAux : List Char → List Char → List String
  | [], acc => [⟨acc.reverse⟩]
  | c :: rest, acc =>
      if c = '.' then (⟨acc.reverse⟩ : String) :: splitDotAux rest []
      else splitDotAux rest (c :: acc)

def splitOnDot (s : String) : List String := splitDotAux s.data []

/-- `getPropertyValue(context, propertyPath)` with dot-path splitting. -/
def getPropertyValue (resource : JValue) (propertyPath : String) : JValue :=
  getPropParts resource (splitOnDot propertyPath)

/-- ECMAScript `ToString` for a number, decimal fragment: exact for
integers and for fractions with a power-of-ten denominator (all values
reachable in the engine); other rationals fall outside the modelled
fragment and are rendered from the reduced fraction. -/
def numToString (q : Q) : String :=
  let sign := if q.num < 0 then "-" else ""
  let a : Q := ⟨(q.num.natAbs : Int), q.dpred⟩
  match (List.range 31).find? (fun k => (a * Q.pow10 k).den == 1) with
  | some k =>
      let m := (a * Q.pow10 k).num.toNat
      if k = 0 then sign ++ toString m
      else
        let digits := toString (m % 10 ^ k)
        let pad := String.mk (List.replicate (k - digits.length) '0')
        sign ++ toString (m / 10 ^ k) ++ "." ++ pad ++ digits
  | none => sign ++ toString a.num ++ "/" ++ toString a.den

mutual

/-- JS `String(v)`. -/
def jsToString : JValue → String
  | .undefined => "undefined"
  | .null => "null"
  | .bool b => if b then "true" else "false"
  | .num q => numToString q
  | .str s => s
  | .arr es => joinElems es
  | .obj _ => "[object Object]"

/-- `Array.prototype.join(',')`: `null`/`undefined` elements render empty. -/
def joinElems : List JValue → String
  | [] => ""
  | v :: vs =>
      (match v with | JValue.undefined => "" | JValue.null => "" | JValue.bool b => if b then "true" else "false" | JValue.num q => numToString q | JValue.str s => s | JValue.arr es => joinElems es | JValue.obj _ => "[object Object]") ++
        (if vs.isEmpty then "" else ",") ++ joinElems vs

end

/-- Decimal fragment of ECMAScript `StringToNumber`: optional sign,
digits, optional fraction; whitespace-only is `0`; anything else is `NaN`
(`none`).  (The exponent/hex forms never occur in the engine's data.) -/
def parseNumber (s : String) : Option Q :=
  let t := (s.data.dropWhile isSpaceChar).reverse.dropWhile isSpaceChar |>.reverse
  if t.isEmpty then some 0
  else
    let signed : Q × List Char :=
      match t with
      | '-' :: r => (-1, r)
      | '+' :: r => (1, r)
      | r => (1, r)
    let intDigits := signed.2.takeWhile Char.isDigit
    let rest := signed.2.dropWhile Char.isDigit
    let digitsVal : List Char → ℕ :=
      fun l => l.foldl (fun acc c => acc * 10 + (c.toNat - '0'.toNat)) 0
    match rest with
    | [] => if intDigits.isEmpty then none else some (signed.1 * digitsVal intDigits)
    | '.' :: frac =>
        if frac.all Char.isDigit && !(intDigits.isEmpty && frac.isEmpty) then
          some (signed.1 *
            ((digitsVal intDigits : Q) + (digitsVal frac : Q) / ((10 ^ frac.length : Nat) : Q)))
        else none
    | _ => none

/-- JS `Number(v)`; `none` models `NaN`. -/
def toNumber : JValue → Option Q
  | .undefined => none
  | .null => some 0
  | .bool b => some (if b then 1 else 0)
  | .num q => some q
  | .str s => parseNumber s
  | .arr es => parseNumber (jsToString (.arr es))
  | .obj _ => none

/-- JS strict equality `===` on engine values: primitives by value,
containers by reference (constantly `false` between a policy constant and
a resource value, which are distinct objects). -/
def jsStrictEq : JValue → JValue → Bool
  | .undefined, .undefined => true
  | .null, .null => true
  | .bool a, .bool b => a == b
  | .num a, .num b => a == b
  | .str a, .str b => a == b
  | _, _ => false

/-- JS `Array.prototype.includes` (SameValueZero; identical to `===` in
our `NaN`-free grammar). -/
def jsArrayIncludes (l : List JValue) (v : JValue) : Bool :=
  l.any (fun x => jsStrictEq x v)

/-- `Number(a) <= Number(b)`: `false` whenever either side is `NaN`. -/
def jsNumLe (a b : Option Q) : Bool :=
  match a, b with
  | some x, some y => x ≤ y
  | _, _ => false

/-- `Number(a) >= Number(b)`. -/
def jsNumGe (a b : Option Q) : Bool :=
  match a, b with
  | some x, some y => y ≤ x
  | _, _ => false

structure PolicyConditions where
  property : String
  operator : String
  value : JValue := .undefined

/-- `evaluatePolicyCondition` (true = violation found). -/
def evaluatePolicyCondition (resource : JValue) (conditions : PolicyConditions) : Bool :=
  let actualValue := getPropertyValue resource conditions.property
  let expectedValue := conditions.value
  if conditions.operator = "equals" then !(jsStrictEq actualValue expectedValue)
  else if conditions.operator = "notEquals" then jsStrictEq actualValue expectedValue
  else if conditions.operator = "contains" then
    match expectedValue with
    | .arr l => !(jsArrayIncludes l actualValue)
    | _ => !(strIncludes (jsToString actualValue) (jsToString expectedValue))
  else if conditions.operator = "notContains" then
    match expectedValue with
    | .arr l => jsArrayIncludes l actualValue
    | _ => strIncludes (jsToString actualValue) (jsToString expectedValue)
  else if conditions.operator = "greaterThan" then
    jsNumLe (toNumber actualValue) (toNumber expectedValue)
  else if conditions.operator = "lessThan" then
    jsNumGe (toNumber actualValue) (toNumber expectedValue)
  else if conditions.operator = "exists" then
    jsStrictEq actualValue .undefined || jsStrictEq actualValue .null
  else if conditions.operator = "notExists" then
    !(jsStrictEq actualValue .undefined || jsStrictEq actualValue .null)
  else false

/-! ### Fix application (`setPropertyValue`, `addPropertyValue`,
`removePropertyValue`)

The three walks mutate the resource in place; we translate them to
functional rebuilding.  A strict-mode `TypeError` (property assignment on
a primitive, `Object.assign` with `null` target) is caught by
`applyManualPolicyFixes` before any mutation has taken effect, so it is
modelled as returning the resource unchanged. -/

/-- Insertion-order-preserving object field write. -/
def setField (k : String) (v : JValue) : List (String × JValue) → List (String × JValue)
  | [] => [(k, v)]
  | (k', v') :: rest => if k' = k then (k, v) :: rest else (k', v') :: setField k v rest

/-- `delete` of an object key. -/
def eraseField (k : String) (fs : List (String × JValue)) : List (String × JValue) :=
  fs.filter (fun kv => kv.1 ≠ k)

/-- Array write `es[i] = v`, extending with holes (read as `undefined`)
past the end, as JS does. -/
def arrSet (es : List JValue) (i : ℕ) (v : JValue) : List JValue :=
  if i < es.length then es.set i v
  else es ++ List.replicate (i - es.length) .undefined ++ [v]

/-- `setPropertyValue`: force intermediate steps to objects
(`if (!current[part] || typeof current[part] !== 'object') current[part] = {}`),
then assign the leaf. -/
def setProp (v : JValue) (parts : List String) (x : JValue) : JValue :=
  match parts with
  | [] => v
  | [last] =>
      match v with
      | .obj fs => .obj (setField last x fs)
      | .arr es =>
          match parseIndex last with
          | some i => .arr (arrSet es i x)
          | none => .arr es
      | w => w
  | p :: rest =>
      match v with
      | .obj fs =>
          let child := (lookupField p fs).getD .undefined
          let child' := if truthy child && isObjLike child then child else .obj []
          .obj (setField p (setProp child' rest x) fs)
      | .arr es =>
          match parseIndex p with
          | some i =>
              let child := es.getD i .undefined
              let child' := if truthy child && isObjLike child then child else .obj []
              .arr (arrSet es i (setProp child' rest x))
          | none => .arr es
      | w => w

/-- Own enumerable properties of an `Object.assign` source (`null`,
`undefined`, numbers and booleans contribute nothing; strings spread
their characters). -/
def ownProps : JValue → List (String × JValue)
  | .obj fs => fs
  | .arr es => (es.enum.map (fun iv => (toString iv.1, iv.2)))
  | .str s => (s.data.enum.map (fun ic => (toString ic.1, JValue.str ⟨[ic.2]⟩)))
  | _ => []

/-- `Object.assign(target, src)` on an object target. -/
def mergeOwnProps (target : List (String × JValue)) (src : JValue) :
    List (String × JValue) :=
  (ownProps src).foldl (fun t kv => setField kv.1 kv.2 t) target

/-- The leaf action of `addPropertyValue`: push onto an array, merge into
an object (`typeof null === 'object'`, so a `null` leaf throws), else
assign. -/
def addLeaf (cur x : JValue) : Option JValue :=
  match cur with
  | .arr es => some (.arr (es ++ [x]))
  | .obj fs => some (.obj (mergeOwnProps fs x))
  | .null => none
  | _ => some x

/-- `addPropertyValue` walk; `none` models the caught strict-mode
`TypeError` (which occurs before any mutation). -/
def addPropAux (v : JValue) (parts : List String) (x : JValue) : Option JValue :=
  match parts with
  | [] => some v
  | [last] =>
      match v with
      | .obj fs =>
          (addLeaf ((lookupField last fs).getD .undefined) x).map
            (fun w => JValue.obj (setField last w fs))
      | .arr es =>
          match parseIndex last with
          | some i => (addLeaf (es.getD i .undefined) x).map (fun w => JValue.arr (arrSet es i w))
          | none => some (.arr es)
      | _ => none
  | p :: rest =>
      match v with
      | .obj fs =>
          let child := (lookupField p fs).getD .undefined
          let child' := if truthy child then child else .obj []
          (addPropAux child' rest x).map (fun c => JValue.obj (setField p c fs))
      | .arr es =>
          match parseIndex p with
          | some i =>
              let child := es.getD i .undefined
              let child' := if truthy child then child else .obj []
              (addPropAux child' rest x).map (fun c => JValue.arr (arrSet es i c))
          | none => some (.arr es)
      | _ => none

def addProp (v : JValue) (parts : List String) (x : JValue) : JValue :=
  (addPropAux v parts x).getD v

/-- `removePropertyValue`: walk while `current[part]` is truthy
(`if (!current[part]) return`), then `delete` the leaf key. -/
def removeProp (v : JValue) (parts : List String) : JValue :=
  match parts with
  | [] => v
  | [last] =>
      match v with
      | .obj fs => .obj (eraseField last fs)
      | .arr es =>
          match parseIndex last with
          | some i => if i < es.length then .arr (es.set i .undefined) else .arr es
          | none => .arr es
      | w => w
  | p :: rest =>
      match v with
      | .obj fs =>
          match lookupField p fs with
          | some child =>
              if truthy child then .obj (setField p (removeProp child rest) fs)
              else .obj fs
          | none => .obj fs
      | .arr es =>
          match parseIndex p with
          | some i =>
              let child := es.getD i .undefined
              if truthy child then .arr (es.set i (removeProp child rest))
              else .arr es
          | none => .arr es
      | w => w

structure PolicyFix where
  action : String
  property : String
  value : JValue := .undefined

/-- One iteration of `applyManualPolicyFixes`' switch over the fix
action (an unknown action leaves the resource untouched). -/
def applyManualFix (resource : JValue) (fix : PolicyFix) : JValue :=
  if fix.action = "set" then setProp resource (splitOnDot fix.property) fix.value
  else if fix.action = "add" then addProp resource (splitOnDot fix.property) fix.value
  else if fix.action = "remove" then removeProp resource (splitOnDot fix.property)
  else resource

/-! ## Concrete data for witnesses and counterexamples -/

/-- The record the exact tier pushes for a service. -/
def exactDetection (s : AzureServiceDefinition) : DetectServiceResult :=
  { service := s, confidence := s.confidence.exact, matchType := .exact,
    matchedText := some s.resourceType }

/-- A single-pass detection with confidence below the precision floor. -/
def lowConfDetection : DetectionResult :=
  { service := virtualMachinesDef, confidence := 0.4
    evidence := [{ type := .text, source := "vm", confidence := 0.4
                   details := "Matched pattern: vm" }]
    position := none }

/-- Two partial results for the same service from different passes. -/
def textPassDetection : DetectionResult :=
  { service := appServiceDef, confidence := 0.9
    evidence := [{ type := .text, source := "web app", confidence := 0.9
                   details := "Matched keyword: web app" }]
    position := none }

def structuralPassDetection : DetectionResult :=
  { service := appServiceDef, confidence := 0.8
    evidence := [{ type := .structural, source := "drawio_element", confidence := 0.8
                   details := "Draw.io element: Web App" }]
    position := some { x := 10, y := 20, width := 100, height := 50 } }

/-- A resource whose `a` property is an array — the input on which the
`add` fix is not idempotent. -/
def arrayLeafResource : JValue := .obj [("a", .arr [.num 1])]

def addToArrayFix : PolicyFix := { action := "add", property := "a", value := .num 2 }

/-! ## Theory of the exact fraction type -/

namespace Q

theorem den_pos (q : Q) : 0 < q.den := Nat.succ_pos _

theorem den_ne_zero (q : Q) : q.den ≠ 0 := Nat.succ_ne_zero _

theorem den_cast_pos (q : Q) : (0 : ℚ) < (q.den : ℚ) := by
  exact_mod_cast q.den_pos

theorem den_cast_ne_zero (q : Q) : ((q.den : ℚ)) ≠ 0 := ne_of_gt q.den_cast_pos

theorem toRat_mkQ (n : Int) (d : Nat) (hd : d ≠ 0) :
    (Q.mkQ n d).toRat = (n : ℚ) / (d : ℚ) := by
  unfold mkQ
  rw [if_neg hd]
  have hg0 : Nat.gcd n.natAbs d ≠ 0 := fun h => hd (Nat.eq_zero_of_gcd_eq_zero_right h)
  have hgn : ((Nat.gcd n.natAbs d : Int)) ∣ n :=
    dvd_trans (Int.natCast_dvd_natCast.mpr (Nat.gcd_dvd_left _ _)) (Int.natAbs_dvd.mpr dvd_rfl)
  have hgd : Nat.gcd n.natAbs d ∣ d := Nat.gcd_dvd_right _ _
  obtain ⟨n', hn'⟩ := hgn
  obtain ⟨d', hd'⟩ := hgd
  have hd'0 : d' ≠ 0 := by
    rintro rfl
    exact hd (by simpa using hd')
  have e1 : n / (Nat.gcd n.natAbs d : Int) = n' :=
    Int.ediv_eq_of_eq_mul_right (by exact_mod_cast hg0) hn'
  have e2 : d / Nat.gcd n.natAbs d = d' :=
    Nat.div_eq_of_eq_mul_right (Nat.pos_of_ne_zero hg0) hd'
  have e3 : (d / Nat.gcd n.natAbs d - 1) + 1 = d / Nat.gcd n.natAbs d :=
    Nat.succ_pred_eq_of_pos (by rw [e2]; exact Nat.pos_of_ne_zero hd'0)
  show ((n / (Nat.gcd n.natAbs d : Int) : Int) : ℚ) / (((d / Nat.gcd n.natAbs d - 1) + 1 : Nat) : ℚ)
      = (n : ℚ) / (d : ℚ)
  have hgq : ((Nat.gcd n.natAbs d : ℚ)) ≠ 0 := by exact_mod_cast hg0
  have hnq : (n : ℚ) = (Nat.gcd n.natAbs d : ℚ) * (n' : ℚ) := by exact_mod_cast hn'
  have hdq : (d : ℚ) = (Nat.gcd n.natAbs d : ℚ) * (d' : ℚ) := by exact_mod_cast hd'
  rw [e3, e1, e2, hnq, hdq, mul_div_mul_left _ _ hgq]

theorem toRat_natCast (n : Nat) : ((n : Q)).toRat = (n : ℚ) := by
  show ((n : Int) : ℚ) / ((0 + 1 : Nat) : ℚ) = (n : ℚ)
  norm_num

theorem toRat_ofNat (n : Nat) : (OfNat.ofNat n : Q).toRat = (n : ℚ) := by
  show ((n : Int) : ℚ) / ((0 + 1 : Nat) : ℚ) = (n : ℚ)
  norm_num

theorem toRat_add (a b : Q) : (a + b).toRat = a.toRat + b.toRat := by
  show (Q.add a b).toRat = _
  unfold Q.add
  rw [toRat_mkQ _ _ (Nat.mul_ne_zero a.den_ne_zero b.den_ne_zero)]
  unfold toRat
  have ha := a.den_cast_ne_zero
  have hb := b.den_cast_ne_zero
  push_cast
  field_simp

theorem toRat_mul (a b : Q) : (a * b).toRat = a.toRat * b.toRat := by
  show (Q.mul a b).toRat = _
  unfold Q.mul
  rw [toRat_mkQ _ _ (Nat.mul_ne_zero a.den_ne_zero b.den_ne_zero)]
  unfold toRat
  have ha := a.den_cast_ne_zero
  have hb := b.den_cast_ne_zero
  push_cast
  field_simp

theorem toRat_div_natCast (a : Q) (n : Nat) (hn : n ≠ 0) :
    (a / (n : Q)).toRat = a.toRat / (n : ℚ) := by
  show (Q.div a (n : Q)).toRat = _
  unfold Q.div mkQI
  have hnn : ¬ ((a.den : Int) * ((n : Q)).num < 0) := by
    show ¬ ((a.den : Int) * (n : Int) < 0)
    simp only [not_lt]
    positivity
  rw [if_neg hnn]
  have e : ((a.den : Int) * ((n : Q)).num).toNat = a.den * n := by
    show ((a.den : Int) * (n : Int)).toNat = a.den * n
    rw [← Int.natCast_mul, Int.toNat_natCast]
  rw [e, toRat_mkQ _ _ (Nat.mul_ne_zero a.den_ne_zero hn)]
  show ((a.num * ((n : Q)).den : Int) : ℚ) / _ = _
  have hden1 : ((n : Q)).den = 1 := rfl
  rw [hden1]
  unfold toRat
  have ha := a.den_cast_ne_zero
  have hq : ((n : ℚ)) ≠ 0 := by exact_mod_cast hn
  push_cast
  field_simp

theorem le_iff_toRat (a b : Q) : a ≤ b ↔ a.toRat ≤ b.toRat := by
  show a.num * (b.den : Int) ≤ b.num * (a.den : Int) ↔
    (a.num : ℚ) / (a.den : ℚ) ≤ (b.num : ℚ) / (b.den : ℚ)
  rw [div_le_div_iff₀ a.den_cast_pos b.den_cast_pos]
  exact_mod_cast Iff.rfl

theorem lt_iff_toRat (a b : Q) : a < b ↔ a.toRat < b.toRat := by
  show a.num * (b.den : Int) < b.num * (a.den : Int) ↔
    (a.num : ℚ) / (a.den : ℚ) < (b.num : ℚ) / (b.den : ℚ)
  rw [div_lt_div_iff₀ a.den_cast_pos b.den_cast_pos]
  exact_mod_cast Iff.rfl

theorem le_of_lt {a b : Q} (h : a < b) : a ≤ b :=
  (le_iff_toRat a b).mpr (LT.lt.le ((lt_iff_toRat a b).mp h))

theorem le_trans {a b c : Q} (hab : a ≤ b) (hbc : b ≤ c) : a ≤ c :=
  (le_iff_toRat a c).mpr
    (Trans.trans ((le_iff_toRat a b).mp hab) ((le_iff_toRat b c).mp hbc))

theorem le_of_not_lt {a b : Q} (h : ¬ a < b) : b ≤ a :=
  (le_iff_toRat b a).mpr (not_lt.mp (fun hc => h ((lt_iff_toRat a b).mpr hc)))

theorem not_le_of_lt {a b : Q} (h : a < b) : ¬ b ≤ a :=
  fun hc => absurd ((le_iff_toRat b a).mp hc) (LT.lt.not_le ((lt_iff_toRat a b).mp h))

end Q

/-! ## Lemmas about the primary detector -/

theorem insertByConfDesc_perm (x : DetectServiceResult) (l : List DetectServiceResult) :
    List.Perm (insertByConfDesc x l) (x :: l) := by
  induction l with
  | nil => exact List.Perm.refl _
  | cons y ys ih =>
      unfold insertByConfDesc
      split
      · exact List.Perm.refl _
      · exact (List.Perm.cons y ih).trans (List.Perm.swap x y ys)

theorem sortByConfDesc_perm_aux (l : List DetectServiceResult) :
    ∀ acc, List.Perm (l.foldl (fun acc x => insertByConfDesc x acc) acc) (acc ++ l) := by
  induction l with
  | nil => intro acc; simp
  | cons x xs ih =>
      intro acc
      refine (ih (insertByConfDesc x acc)).trans ?_
      refine (List.Perm.append_right xs (insertByConfDesc_perm x acc)).trans ?_
      exact List.perm_middle.symm

theorem sortByConfDesc_perm (l : List DetectServiceResult) :
    List.Perm (sortByConfDesc l) l := by
  simpa using sortByConfDesc_perm_aux l []

theorem dedupByServiceIdAux_subset {y : DetectServiceResult}
    {l : List DetectServiceResult} :
    ∀ seen, y ∈ dedupByServiceIdAux seen l → y ∈ l := by
  induction l with
  | nil =>
      intro seen h
      simp [dedupByServiceIdAux] at h
  | cons x xs ih =>
      intro seen h
      unfold dedupByServiceIdAux at h
      split at h
      · exact List.mem_cons_of_mem _ (ih _ h)
      · rcases List.mem_cons.mp h with rfl | h'
        · exact List.mem_cons_self _ _
        · exact List.mem_cons_of_mem _ (ih _ h')

theorem mem_dedupByServiceIdAux {x : DetectServiceResult}
    {l : List DetectServiceResult} :
    ∀ seen, x ∈ l → x.service.id ∉ seen →
      (∀ y ∈ l, y.service.id = x.service.id → y = x) →
      x ∈ dedupByServiceIdAux seen l := by
  induction l with
  | nil =>
      intro seen hx
      exact absurd hx (List.not_mem_nil x)
  | cons z zs ih =>
      intro seen hx hseen huniq
      unfold dedupByServiceIdAux
      rcases List.mem_cons.mp hx with rfl | hx'
      · rw [if_neg (by simpa using hseen)]
        exact List.mem_cons_self _ _
      · by_cases hz : z.service.id = x.service.id
        · have hzx : z = x := huniq z (List.mem_cons_self _ _) hz
          subst hzx
          rw [if_neg (by simpa using hseen)]
          exact List.mem_cons_self _ _
        · split
          · exact ih _ hx' hseen (fun y hy => huniq y (List.mem_cons_of_mem _ hy))
          · refine List.mem_cons_of_mem _
              (ih _ hx' ?_ (fun y hy => huniq y (List.mem_cons_of_mem _ hy)))
            intro hc
            rcases List.mem_cons.mp hc with hc' | hc'
            · exact hz hc'.symm
            · exact hseen hc'

/-- Every branch of the per-service loop records the service itself. -/
theorem detectOne_service {t : String} {s : AzureServiceDefinition} {r : DetectServiceResult}
    (h : detectOne t s = some r) : r.service = s := by
  simp only [detectOne] at h
  by_cases hex : (strIncludes (lowerStr t) (lowerStr s.resourceType) ||
      s.alternativeResourceTypes.any
        (fun type' => strIncludes (lowerStr t) (lowerStr type'))) = true
  · rw [if_pos hex] at h
    cases h
    rfl
  · rw [if_neg hex] at h
    rcases hp : firstValidPattern t s s.textPatterns with _ | ⟨m, mult⟩
    · simp only [hp] at h
      rcases hk : firstValidKeyword t s s.keywords with _ | ⟨kw, multk⟩
      · simp only [hk] at h
        rcases ha : firstValidAlias t s
            (s.aliases ++ s.commonNames ++ s.abbreviations) with _ | ⟨al, multa⟩
        · simp only [ha] at h
          cases h
        · simp only [ha] at h
          cases h
          rfl
      · simp only [hk] at h
        cases h
        rfl
    · simp only [hp] at h
      cases h
      rfl

/-- If the lowercased text contains the canonical resource type or an
alternate one, the exact tier fires for that service. -/
theorem detectOne_exact {t : String} {s : AzureServiceDefinition}
    (hex : (strIncludes (lowerStr t) (lowerStr s.resourceType) ||
        s.alternativeResourceTypes.any
          (fun type' => strIncludes (lowerStr t) (lowerStr type'))) = true) :
    detectOne t s = some (exactDetection s) := by
  unfold detectOne exactDetection
  rw [if_pos hex]

/-- The twelve catalog entries have pairwise distinct ids. -/
theorem services_ids_nodup :
    (AzureServicesDatabase.services.map (fun s => s.id)).Nodup := by decide

theorem services_id_inj {s s' : AzureServiceDefinition}
    (hs : s ∈ AzureServicesDatabase.services) (hs' : s' ∈ AzureServicesDatabase.services)
    (h : s.id = s'.id) : s = s' :=
  List.inj_on_of_nodup_map services_ids_nodup hs hs' h

/-- Core of the exact-match claims: a blocklist-clean text containing a
service's (lowercased) canonical or alternate resource type yields exactly
one output entry for that service id — the exact-tier record. -/
theorem detectService_exact_core {t : String} {s : AzureServiceDefinition}
    (hs : s ∈ AzureServicesDatabase.services)
    (hclean : hasNonAzureIndicators t = false)
    (hex : (strIncludes (lowerStr t) (lowerStr s.resourceType) ||
        s.alternativeResourceTypes.any
          (fun type' => strIncludes (lowerStr t) (lowerStr type'))) = true) :
    exactDetection s ∈ detectService t ∧
    ∀ y ∈ detectService t, y.service.id = s.id → y = exactDetection s := by
  have hdet : detectService t =
      dedupByServiceId (sortByConfDesc
        (AzureServicesDatabase.services.filterMap (detectOne t))) := by
    unfold detectService
    rw [hclean]
    rfl
  have hpre : exactDetection s ∈ AzureServicesDatabase.services.filterMap (detectOne t) :=
    List.mem_filterMap.mpr ⟨s, hs, detectOne_exact hex⟩
  have huniq_pre : ∀ y ∈ AzureServicesDatabase.services.filterMap (detectOne t),
      y.service.id = s.id → y = exactDetection s := by
    intro y hy hid
    obtain ⟨s', hs', hone⟩ := List.mem_filterMap.mp hy
    have hsvc : y.service = s' := detectOne_service hone
    have heq : s' = s := services_id_inj hs' hs (by rw [← hsvc]; exact hid)
    subst heq
    have hone' := detectOne_exact (t := t) (s := s') hex
    rw [hone'] at hone
    exact (Option.some_injective _ hone).symm
  have hperm : List.Perm
      (sortByConfDesc (AzureServicesDatabase.services.filterMap (detectOne t)))
      (AzureServicesDatabase.services.filterMap (detectOne t)) := sortByConfDesc_perm _
  have hsort_mem : exactDetection s ∈
      sortByConfDesc (AzureServicesDatabase.services.filterMap (detectOne t)) :=
    hperm.mem_iff.mpr hpre
  have huniq_sort : ∀ y ∈ sortByConfDesc (AzureServicesDatabase.services.filterMap (detectOne t)),
      y.service.id = s.id → y = exactDetection s :=
    fun y hy => huniq_pre y (hperm.mem_iff.mp hy)
  constructor
  · rw [hdet]
    exact mem_dedupByServiceIdAux _ hsort_mem (List.not_mem_nil _)
      (fun y hy => huniq_sort y hy)
  · intro y hy hid
    rw [hdet] at hy
    exact huniq_sort y (dedupByServiceIdAux_subset _ hy) hid

/-- C1: for every input text that contains (case-insensitively) any
indicator from the fixed non-Azure blocklist, `detectService` returns the
empty list, regardless of any Azure terms also present. -/
theorem detectService_blocked (text : String)
    (h : ∃ kw ∈ nonAzureKeywords, strIncludes (lowerStr text) (lowerStr kw) = true) :
    detectService text = [] := by
  obtain ⟨kw, hmem, hinc⟩ := h
  have hb : hasNonAzureIndicators text = true := by
    unfold hasNonAzureIndicators
    exact List.any_eq_true.mpr ⟨kw, hmem, hinc⟩
  unfold detectService
  rw [hb]
  rfl

/-- Witness for C1 at the spec's own scenario input. -/
theorem detectService_blocked_witness :
    (∃ kw ∈ nonAzureKeywords,
      strIncludes (lowerStr "EC2 instance with RDS database and S3 bucket") (lowerStr kw) = true) ∧
    detectService "EC2 instance with RDS database and S3 bucket" = [] :=
  ⟨by decide, detectService_blocked _ (by decide)⟩

/-- C2: a blocklist-clean text containing a service's canonical resource
type (or an alternate one) as a lowercase substring yields a result for
that service with confidence `confidenceWeights.exact`, `matchType` exact
and `matchedText` the canonical resource type; no lower tier contributes
an entry for that service. -/
theorem detectService_exact_spec (text : String) (s : AzureServiceDefinition)
    (hs : s ∈ AzureServicesDatabase.services)
    (hclean : hasNonAzureIndicators text = false)
    (hex : strIncludes (lowerStr text) (lowerStr s.resourceType) = true ∨
      ∃ a ∈ s.alternativeResourceTypes, strIncludes (lowerStr text) (lowerStr a) = true) :
    (∃ r ∈ detectService text, r.service = s ∧ r.confidence = s.confidence.exact ∧
      r.matchType = MatchType.exact ∧ r.matchedText = some s.resourceType) ∧
    (∀ r ∈ detectService text, r.service.id = s.id →
      r.confidence = s.confidence.exact ∧ r.matchType = MatchType.exact ∧
      r.matchedText = some s.resourceType) := by
  have hb : (strIncludes (lowerStr text) (lowerStr s.resourceType) ||
      s.alternativeResourceTypes.any
        (fun type' => strIncludes (lowerStr text) (lowerStr type'))) = true := by
    rcases hex with h | ⟨a, ha, h⟩
    · rw [Bool.or_eq_true]
      exact Or.inl h
    · rw [Bool.or_eq_true]
      exact Or.inr (List.any_eq_true.mpr ⟨a, ha, h⟩)
  obtain ⟨hmem, huniq⟩ := detectService_exact_core hs hclean hb
  refine ⟨⟨exactDetection s, hmem, rfl, rfl, rfl, rfl⟩, ?_⟩
  intro r hr hid
  rw [huniq r hr hid]
  exact ⟨rfl, rfl, rfl⟩

/-- Witness for C2 at the spec's `"Microsoft.Web/sites configuration"`
scenario, instantiated with the `app-service` catalog entry. -/
theorem detectService_exact_spec_witness :
    appServiceDef ∈ AzureServicesDatabase.services ∧
    hasNonAzureIndicators "Microsoft.Web/sites configuration" = false ∧
    strIncludes (lowerStr "Microsoft.Web/sites configuration")
      (lowerStr appServiceDef.resourceType) = true ∧
    (∃ r ∈ detectService "Microsoft.Web/sites configuration",
      r.service = appServiceDef ∧ r.confidence = appServiceDef.confidence.exact ∧
      r.matchType = MatchType.exact ∧ r.matchedText = some appServiceDef.resourceType) :=
  ⟨by decide, by decide, by decide,
    (detectService_exact_spec _ _ (by decide) (by decide) (Or.inl (by decide))).1⟩

/-- Two distinct members of a list force length at least two. -/
theorem two_le_length_of_mem_ne {α : Type _} {x y : α} {l : List α}
    (hx : x ∈ l) (hy : y ∈ l) (hne : x ≠ y) : 2 ≤ l.length := by
  cases l with
  | nil => cases hx
  | cons a t =>
      rcases List.mem_cons.mp hx with rfl | hx'
      · rcases List.mem_cons.mp hy with rfl | hy'
        · exact absurd rfl hne
        · have ht := List.length_pos.mpr (List.ne_nil_of_mem hy')
          simp only [List.length_cons]
          omega
      · have ht := List.length_pos.mpr (List.ne_nil_of_mem hx')
        simp only [List.length_cons]
        omega

/-- C10: `app-service` and `azure-functions` are distinct catalog entries
sharing the canonical resource type `Microsoft.Web/sites`; any
blocklist-clean text containing `microsoft.web/sites` therefore yields at
least two results — one per id — both exact with confidence 1.0. -/
theorem detectService_sharedResourceType (text : String)
    (hclean : hasNonAzureIndicators text = false)
    (hinc : strIncludes (lowerStr text) "microsoft.web/sites" = true) :
    appServiceDef.resourceType = "Microsoft.Web/sites" ∧
    azureFunctionsDef.resourceType = "Microsoft.Web/sites" ∧
    appServiceDef.id ≠ azureFunctionsDef.id ∧
    (∃ r ∈ detectService text, r.service = appServiceDef ∧ r.confidence = 1 ∧
      r.matchType = MatchType.exact) ∧
    (∃ r ∈ detectService text, r.service = azureFunctionsDef ∧ r.confidence = 1 ∧
      r.matchType = MatchType.exact) ∧
    2 ≤ (detectService text).length := by
  have hlowApp : lowerStr appServiceDef.resourceType = "microsoft.web/sites" := by decide
  have hlowFun : lowerStr azureFunctionsDef.resourceType = "microsoft.web/sites" := by decide
  have happMem : appServiceDef ∈ AzureServicesDatabase.services := by decide
  have hfunMem : azureFunctionsDef ∈ AzureServicesDatabase.services := by decide
  have hbApp : (strIncludes (lowerStr text) (lowerStr appServiceDef.resourceType) ||
      appServiceDef.alternativeResourceTypes.any
        (fun type' => strIncludes (lowerStr text) (lowerStr type'))) = true := by
    rw [Bool.or_eq_true]
    exact Or.inl (by rw [hlowApp]; exact hinc)
  have hbFun : (strIncludes (lowerStr text) (lowerStr azureFunctionsDef.resourceType) ||
      azureFunctionsDef.alternativeResourceTypes.any
        (fun type' => strIncludes (lowerStr text) (lowerStr type'))) = true := by
    rw [Bool.or_eq_true]
    exact Or.inl (by rw [hlowFun]; exact hinc)
  obtain ⟨happ, -⟩ := detectService_exact_core happMem hclean hbApp
  obtain ⟨hfun, -⟩ := detectService_exact_core hfunMem hclean hbFun
  refine ⟨rfl, rfl, by decide, ⟨exactDetection appServiceDef, happ, rfl, by decide, rfl⟩,
    ⟨exactDetection azureFunctionsDef, hfun, rfl, by decide, rfl⟩, ?_⟩
  exact two_le_length_of_mem_ne happ hfun (by decide)

/-- Witness for C10 at a concrete text containing the shared type. -/
theorem detectService_sharedResourceType_witness :
    hasNonAzureIndicators "Microsoft.Web/sites deployment" = false ∧
    strIncludes (lowerStr "Microsoft.Web/sites deployment") "microsoft.web/sites" = true ∧
    2 ≤ (detectService "Microsoft.Web/sites deployment").length :=
  ⟨by decide, by decide,
    (detectService_sharedResourceType _ (by decide) (by decide)).2.2.2.2.2⟩

/-- C7 (failing input): on `"App Service webapp frontend"` the detector
returns the single `app-service` result via the pattern tier with
confidence `0.9 × 0.8 = 0.72`, the corroborating-keyword multiplier
having been applied — below the `0.85` the spec promises. -/
theorem detectService_appservice_webapp_eval :
    detectService "App Service webapp frontend" =
      [{ service := appServiceDef, confidence := 0.9 * 0.8, matchType := .pattern,
         matchedText := some "App Service" }] ∧
    ¬ ((0.85 : Q) ≤ 0.9 * 0.8) := by
  exact ⟨by decide, by decide⟩

/-- C8 (failing input): on `"Database server with web application and
file storage"` the detector returns two results — `storage-account` via
the `File Storage` common name (alias tier validation passes because that
string is not an abbreviation) and `app-service` via the `web app`
pattern (corroborated by the `web application` keyword) — not the empty
list the spec promises. -/
theorem detectService_generic_terms_eval :
    detectService "Database server with web application and file storage" =
      [{ service := storageAccountDef, confidence := 0.95 * 0.9 * 1.0, matchType := .keyword,
         matchedText := some "File Storage" },
       { service := appServiceDef, confidence := 0.9 * 0.8, matchType := .pattern,
         matchedText := some "web app" }] ∧
    detectService "Database server with web application and file storage" ≠ [] := by
  have h1 : detectService "Database server with web application and file storage" =
      [{ service := storageAccountDef, confidence := 0.95 * 0.9 * 1.0, matchType := .keyword,
         matchedText := some "File Storage" },
       { service := appServiceDef, confidence := 0.9 * 0.8, matchType := .pattern,
         matchedText := some "web app" }] := by decide
  refine ⟨h1, ?_⟩
  rw [h1]
  simp

/-! ## Lemmas about the aggregator's merge step -/

theorem mapGet_mapSet (m : List (String × DetectionResult)) (k id : String)
    (v : DetectionResult) :
    mapGet (mapSet m k v) id = if k = id then some v else mapGet m id := by
  induction m with
  | nil =>
      unfold mapSet mapGet
      by_cases h : k = id <;> simp [h, mapGet]
  | cons kv rest ih =>
      obtain ⟨k', v'⟩ := kv
      unfold mapSet
      by_cases hk : k' = k
      · subst hk
        rw [if_pos rfl]
        unfold mapGet
        by_cases hid : k' = id <;> simp [hid]
      · rw [if_neg hk]
        unfold mapGet
        by_cases hid : k' = id
        · subst hid
          have : ¬ k = k' := fun hc => hk hc.symm
          simp [this]
        · simp [hid, ih]

theorem mapGet_mergeStep (m : List (String × DetectionResult)) (r : DetectionResult)
    (id : String) :
    mapGet (mergeStep m r) id =
      if r.service.id = id then
        some (match mapGet m r.service.id with
              | some existing => combineResults existing r
              | none => r)
      else mapGet m id := by
  unfold mergeStep
  rcases hm : mapGet m r.service.id with _ | existing
  · rw [mapGet_mapSet]
  · rw [mapGet_mapSet]

theorem foldl_mergeStep_filter (rs : List DetectionResult) :
    ∀ (m : List (String × DetectionResult)) (id : String),
      mapGet (rs.foldl mergeStep m) id =
        mergeChain (mapGet m id) (rs.filter (fun r => r.service.id == id)) := by
  induction rs with
  | nil => intro m id; rfl
  | cons r rs ih =>
      intro m id
      show mapGet (rs.foldl mergeStep (mergeStep m r)) id = _
      rw [ih]
      by_cases hid : r.service.id = id
      · have hb : (r.service.id == id) = true := beq_iff_eq.mpr hid
        simp only [List.filter_cons, hb, if_true]
        show _ = mergeChain _ (r :: _)
        have hchain : ∀ acc l, mergeChain acc (r :: l) =
            mergeChain (match acc with
              | some existing => some (combineResults existing r)
              | none => some r) l := fun acc l => rfl
        rw [hchain, mapGet_mergeStep, if_pos hid, hid]
        rcases mapGet m id with _ | e <;> rfl
      · have hb : (r.service.id == id) = false := by
          simp [hid]
        simp only [List.filter_cons, hb, Bool.false_eq_true, if_false]
        rw [mapGet_mergeStep, if_neg hid]

theorem mem_insertDRByConfDesc {a x : DetectionResult} :
    ∀ {l : List DetectionResult}, a ∈ insertDRByConfDesc x l → a = x ∨ a ∈ l := by
  intro l
  induction l with
  | nil =>
      intro h
      rcases List.mem_cons.mp h with rfl | h'
      · exact Or.inl rfl
      · cases h'
  | cons y ys ih =>
      intro h
      unfold insertDRByConfDesc at h
      split at h
      · rcases List.mem_cons.mp h with rfl | h'
        · exact Or.inl rfl
        · exact Or.inr h'
      · rcases List.mem_cons.mp h with rfl | h'
        · exact Or.inr (List.mem_cons_self _ _)
        · rcases ih h' with h'' | h''
          · exact Or.inl h''
          · exact Or.inr (List.mem_cons_of_mem _ h'')

theorem pairwise_insertDRByConfDesc {x : DetectionResult} :
    ∀ {l : List DetectionResult},
      l.Pairwise (fun a b => b.confidence ≤ a.confidence) →
      (insertDRByConfDesc x l).Pairwise (fun a b => b.confidence ≤ a.confidence) := by
  intro l
  induction l with
  | nil =>
      intro _
      simp [insertDRByConfDesc]
  | cons y ys ih =>
      intro h
      obtain ⟨hy, hys⟩ := List.pairwise_cons.mp h
      unfold insertDRByConfDesc
      split
      · rename_i hlt
        refine List.pairwise_cons.mpr ⟨?_, h⟩
        intro z hz
        rcases List.mem_cons.mp hz with rfl | hz'
        · exact Q.le_of_lt hlt
        · exact Q.le_trans (hy z hz') (Q.le_of_lt hlt)
      · rename_i hnlt
        refine List.pairwise_cons.mpr ⟨?_, ih hys⟩
        intro z hz
        rcases mem_insertDRByConfDesc hz with rfl | hz'
        · exact Q.le_of_not_lt hnlt
        · exact hy z hz'

theorem pairwise_sortDRByConfDesc_aux (l : List DetectionResult) :
    ∀ acc, acc.Pairwise (fun a b => b.confidence ≤ a.confidence) →
      (l.foldl (fun acc x => insertDRByConfDesc x acc) acc).Pairwise
        (fun a b => b.confidence ≤ a.confidence) := by
  induction l with
  | nil => intro acc hacc; exact hacc
  | cons x xs ih =>
      intro acc hacc
      exact ih _ (pairwise_insertDRByConfDesc hacc)

theorem pairwise_sortDRByConfDesc (l : List DetectionResult) :
    (sortDRByConfDesc l).Pairwise (fun a b => b.confidence ≤ a.confidence) :=
  pairwise_sortDRByConfDesc_aux l [] (List.Pairwise.nil)

/-- C3: merging duplicates combines confidences by
`min(existing + candidate × 0.5, 1.0)` and concatenates evidence (the
position coming from whichever result already has one); the final output
is sorted by confidence descending with no entry at or below `0.5`. -/
theorem mergeAndRankResults_spec :
    (∀ (results : List DetectionResult) (id : String) (r1 r2 : DetectionResult),
      results.filter (fun r => r.service.id == id) = [r1, r2] →
      mapGet (results.foldl mergeStep []) id =
        some { service := r2.service
               confidence := min (r1.confidence + r2.confidence * 0.5) 1.0
               evidence := r1.evidence ++ r2.evidence
               position := r1.position <|> r2.position }) ∧
    (∀ results : List DetectionResult,
      (mergeAndRankResults results).Pairwise (fun a b => b.confidence ≤ a.confidence)) ∧
    (∀ results : List DetectionResult, ∀ r ∈ mergeAndRankResults results,
      ¬ (r.confidence ≤ 0.5)) := by
  refine ⟨?_, ?_, ?_⟩
  · intro results id r1 r2 hfilter
    rw [foldl_mergeStep_filter, hfilter]
    rfl
  · intro results
    unfold mergeAndRankResults
    exact List.Pairwise.filter _ (pairwise_sortDRByConfDesc _)
  · intro results r hr
    unfold mergeAndRankResults at hr
    have := List.of_mem_filter hr
    exact Q.not_le_of_lt (of_decide_eq_true this)

/-- Witness for C3's combination formula on two same-service results. -/
theorem mergeAndRankResults_spec_witness :
    ([textPassDetection, structuralPassDetection].filter
        (fun r => r.service.id == "app-service") =
      [textPassDetection, structuralPassDetection]) ∧
    mapGet ([textPassDetection, structuralPassDetection].foldl mergeStep []) "app-service" =
      some { service := structuralPassDetection.service
             confidence := min
               (textPassDetection.confidence + structuralPassDetection.confidence * 0.5) 1.0
             evidence := textPassDetection.evidence ++ structuralPassDetection.evidence
             position := textPassDetection.position <|> structuralPassDetection.position } :=
  ⟨by decide, mergeAndRankResults_spec.1 _ _ _ _ (by decide)⟩

/-- C9 (amended): merging `[R]` with the empty list returns `[R]`
unchanged provided `R`'s confidence clears the `0.5` precision floor. -/
theorem mergeAndRank_singleton (R : DetectionResult) (h : (0.5 : Q) < R.confidence) :
    mergeAndRankResults ([R] ++ []) = [R] := by
  unfold mergeAndRankResults mergeStep mapGet mapSet sortDRByConfDesc
  simp [insertDRByConfDesc, List.filter, h]

/-- C9 counterexample: a single result at confidence `0.4` is dropped by
the precision floor, so merging `[R]` with `[]` does not return `[R]`. -/
theorem mergeAndRank_singleton_counterexample :
    mergeAndRankResults ([lowConfDetection] ++ []) ≠ [lowConfDetection] := by
  have h1 : mergeAndRankResults ([lowConfDetection] ++ []) = [] := by decide
  rw [h1]
  simp

/-- Witness for the amended C9 at a concrete above-floor result. -/
theorem mergeAndRank_singleton_witness :
    ((0.5 : Q) < textPassDetection.confidence) ∧
    mergeAndRankResults ([textPassDetection] ++ []) = [textPassDetection] :=
  ⟨by decide, mergeAndRank_singleton _ (by decide)⟩

/-! ## Accuracy metrics -/

theorem toRat09 : (0.9 : Q).toRat = (0.9 : ℚ) := by
  norm_num [show (0.9 : Q) = ⟨9, 9⟩ from rfl, Q.toRat, Q.den]

theorem toRat07 : (0.7 : Q).toRat = (0.7 : ℚ) := by
  norm_num [show (0.7 : Q) = ⟨7, 9⟩ from rfl, Q.toRat, Q.den]

theorem toRat08 : (0.8 : Q).toRat = (0.8 : ℚ) := by
  norm_num [show (0.8 : Q) = ⟨4, 4⟩ from rfl, Q.toRat, Q.den]

theorem toRat05 : (0.5 : Q).toRat = (0.5 : ℚ) := by
  norm_num [show (0.5 : Q) = ⟨1, 1⟩ from rfl, Q.toRat, Q.den]

theorem toRat10 : (1.0 : Q).toRat = (1 : ℚ) := by
  norm_num [show (1.0 : Q) = ⟨1, 0⟩ from rfl, Q.toRat, Q.den]

theorem toRat_zero : (0 : Q).toRat = (0 : ℚ) := by
  show ((0 : Int) : ℚ) / ((0 + 1 : Nat) : ℚ) = 0
  norm_num

theorem toRat_foldl_add (l : List DetectionResult) :
    ∀ a : Q, (l.foldl (fun s r => s + r.confidence) a).toRat =
      a.toRat + (l.map (fun r => r.confidence.toRat)).sum := by
  induction l with
  | nil => intro a; simp
  | cons r rs ih =>
      intro a
      show (rs.foldl (fun s r => s + r.confidence) (a + r.confidence)).toRat = _
      rw [ih, Q.toRat_add]
      simp [add_assoc]

/-- The body of `calculateAccuracyMetrics` on a non-empty list. -/
theorem calculateAccuracyMetrics_eq (results : List DetectionResult) (h : results ≠ []) :
    calculateAccuracyMetrics results =
      { overallConfidence :=
          (results.foldl (fun sum result => sum + result.confidence) (0 : Q)) /
            (results.length : Q)
        highConfidenceCount := (results.filter (fun r => r.confidence ≥ 0.9)).length
        mediumConfidenceCount :=
          (results.filter (fun r => r.confidence ≥ 0.7 && r.confidence < 0.9)).length
        lowConfidenceCount := (results.filter (fun r => r.confidence < 0.7)).length
        accuracyScore :=
          (((results.filter (fun r => r.confidence ≥ 0.9)).length : Q) * 1.0 +
            ((results.filter (fun r => r.confidence ≥ 0.7 && r.confidence < 0.9)).length : Q) *
              0.8 +
            ((results.filter (fun r => r.confidence < 0.7)).length : Q) * 0.5) /
            (results.length : Q) } := by
  unfold calculateAccuracyMetrics
  rw [if_neg (fun hc => h (List.length_eq_zero.mp hc))]

theorem high_count_eq (results : List DetectionResult) :
    (results.filter (fun r => r.confidence ≥ 0.9)).length =
      results.countP (fun r => decide ((0.9 : ℚ) ≤ r.confidence.toRat)) := by
  rw [List.countP_eq_length_filter]
  refine congrArg List.length (List.filter_congr ?_)
  intro r _
  refine decide_eq_decide.mpr ?_
  rw [ge_iff_le, Q.le_iff_toRat, toRat09]

theorem medium_count_eq (results : List DetectionResult) :
    (results.filter (fun r => r.confidence ≥ 0.7 && r.confidence < 0.9)).length =
      results.countP (fun r =>
        decide ((0.7 : ℚ) ≤ r.confidence.toRat ∧ r.confidence.toRat < (0.9 : ℚ))) := by
  rw [List.countP_eq_length_filter]
  refine congrArg List.length (List.filter_congr ?_)
  intro r _
  rw [Bool.decide_and]
  refine congrArg₂ Bool.and ?_ ?_
  · refine decide_eq_decide.mpr ?_
    rw [ge_iff_le, Q.le_iff_toRat, toRat07]
  · refine decide_eq_decide.mpr ?_
    rw [Q.lt_iff_toRat, toRat09]

theorem low_count_eq (results : List DetectionResult) :
    (results.filter (fun r => r.confidence < 0.7)).length =
      results.countP (fun r => decide (r.confidence.toRat < (0.7 : ℚ))) := by
  rw [List.countP_eq_length_filter]
  refine congrArg List.length (List.filter_congr ?_)
  intro r _
  refine decide_eq_decide.mpr ?_
  rw [Q.lt_iff_toRat, toRat07]

theorem counts_partition (results : List DetectionResult) :
    results.countP (fun r => decide ((0.9 : ℚ) ≤ r.confidence.toRat)) +
      results.countP (fun r =>
        decide ((0.7 : ℚ) ≤ r.confidence.toRat ∧ r.confidence.toRat < (0.9 : ℚ))) +
      results.countP (fun r => decide (r.confidence.toRat < (0.7 : ℚ))) =
      results.length := by
  induction results with
  | nil => rfl
  | cons r rs ih =>
      simp only [List.countP_cons, List.length_cons, Bool.decide_and] at ih ⊢
      by_cases h9 : (0.9 : ℚ) ≤ r.confidence.toRat
      · have h7 : (0.7 : ℚ) ≤ r.confidence.toRat := by linarith
        have hn9 : ¬ r.confidence.toRat < (0.9 : ℚ) := not_lt.mpr h9
        have hn7 : ¬ r.confidence.toRat < (0.7 : ℚ) := not_lt.mpr h7
        simp [h9, h7, hn9, hn7]
        omega
      · by_cases h7 : (0.7 : ℚ) ≤ r.confidence.toRat
        · have hl9 : r.confidence.toRat < (0.9 : ℚ) := not_le.mp h9
          have hn7 : ¬ r.confidence.toRat < (0.7 : ℚ) := not_lt.mpr h7
          simp [h9, h7, hl9, hn7]
          omega
        · have hl7 : r.confidence.toRat < (0.7 : ℚ) := not_le.mp h7
          simp [h9, h7, hl7]
          omega

/-- C6: `calculateAccuracyMetrics` returns all zeros on the empty list;
on a non-empty list `overallConfidence` is the arithmetic mean, the
counts partition the results at the `0.9` and `0.7` boundaries, and
`accuracyScore = (high × 1.0 + medium × 0.8 + low × 0.5) / total`. -/
theorem calculateAccuracyMetrics_spec :
    calculateAccuracyMetrics [] =
      { overallConfidence := 0, highConfidenceCount := 0, mediumConfidenceCount := 0,
        lowConfidenceCount := 0, accuracyScore := 0 } ∧
    ∀ results : List DetectionResult, results ≠ [] →
      (calculateAccuracyMetrics results).overallConfidence.toRat =
        (results.map (fun r => r.confidence.toRat)).sum / (results.length : ℚ) ∧
      (calculateAccuracyMetrics results).highConfidenceCount =
        results.countP (fun r => decide ((0.9 : ℚ) ≤ r.confidence.toRat)) ∧
      (calculateAccuracyMetrics results).mediumConfidenceCount =
        results.countP (fun r =>
          decide ((0.7 : ℚ) ≤ r.confidence.toRat ∧ r.confidence.toRat < (0.9 : ℚ))) ∧
      (calculateAccuracyMetrics results).lowConfidenceCount =
        results.countP (fun r => decide (r.confidence.toRat < (0.7 : ℚ))) ∧
      (calculateAccuracyMetrics results).highConfidenceCount +
        (calculateAccuracyMetrics results).mediumConfidenceCount +
        (calculateAccuracyMetrics results).lowConfidenceCount = results.length ∧
      (calculateAccuracyMetrics results).accuracyScore.toRat =
        (((calculateAccuracyMetrics results).highConfidenceCount : ℚ) * 1 +
          ((calculateAccuracyMetrics results).mediumConfidenceCount : ℚ) * 0.8 +
          ((calculateAccuracyMetrics results).lowConfidenceCount : ℚ) * 0.5) /
          (results.length : ℚ) := by
  refine ⟨rfl, ?_⟩
  intro results hne
  have hlen : results.length ≠ 0 := fun hc => hne (List.length_eq_zero.mp hc)
  rw [calculateAccuracyMetrics_eq results hne]
  refine ⟨?_, high_count_eq results, medium_count_eq results, low_count_eq results, ?_, ?_⟩
  · show ((results.foldl (fun sum result => sum + result.confidence) (0 : Q)) /
        (results.length : Q)).toRat = _
    rw [Q.toRat_div_natCast _ _ hlen, toRat_foldl_add, toRat_zero, zero_add]
  · show (results.filter (fun r => r.confidence ≥ 0.9)).length +
        (results.filter (fun r => r.confidence ≥ 0.7 && r.confidence < 0.9)).length +
        (results.filter (fun r => r.confidence < 0.7)).length = results.length
    rw [high_count_eq, medium_count_eq, low_count_eq]
    exact counts_partition results
  · show ((((results.filter (fun r => r.confidence ≥ 0.9)).length : Q) * 1.0 +
        ((results.filter (fun r => r.confidence ≥ 0.7 && r.confidence < 0.9)).length : Q) * 0.8 +
        ((results.filter (fun r => r.confidence < 0.7)).length : Q) * 0.5) /
        (results.length : Q)).toRat = _
    rw [Q.toRat_div_natCast _ _ hlen]
    simp only [Q.toRat_add, Q.toRat_mul, Q.toRat_natCast, toRat10, toRat08, toRat05]

/-! ## Policy rule engine: operator table -/

theorem getPropParts_undef (ps : List String) : getPropParts JValue.undefined ps = JValue.undefined := by
  cases ps <;> rfl

theorem jsStrictEq_undef_iff (v : JValue) : jsStrictEq v JValue.undefined = true ↔ v = JValue.undefined := by
  cases v <;> simp [jsStrictEq]

theorem jsStrictEq_null_iff (v : JValue) : jsStrictEq v JValue.null = true ↔ v = JValue.null := by
  cases v <;> simp [jsStrictEq]

/-- C4: the condition evaluator follows the operator table — `equals`
and `notEquals` via JS strict equality, `contains`/`notContains` via
membership (list expected) or string inclusion, the numeric comparisons
via `Number` coercion (no violation when either side is `NaN`), the
existence operators via absent-or-null checks, an unknown operator never
reports a violation, and missing intermediate dot-path keys resolve to an
absent value rather than an error. -/
theorem evaluatePolicyCondition_table :
    (∀ (r : JValue) (p : String) (v : JValue),
      evaluatePolicyCondition r ⟨p, "equals", v⟩ =
        !(jsStrictEq (getPropertyValue r p) v)) ∧
    (∀ (r : JValue) (p : String) (v : JValue),
      evaluatePolicyCondition r ⟨p, "notEquals", v⟩ =
        jsStrictEq (getPropertyValue r p) v) ∧
    (∀ (r : JValue) (p : String) (l : List JValue),
      evaluatePolicyCondition r ⟨p, "contains", JValue.arr l⟩ = true ↔
        ¬ ∃ x ∈ l, jsStrictEq x (getPropertyValue r p) = true) ∧
    (∀ (r : JValue) (p : String) (v : JValue), (∀ l, v ≠ JValue.arr l) →
      evaluatePolicyCondition r ⟨p, "contains", v⟩ =
        !(strIncludes (jsToString (getPropertyValue r p)) (jsToString v))) ∧
    (∀ (r : JValue) (p : String) (l : List JValue),
      evaluatePolicyCondition r ⟨p, "notContains", JValue.arr l⟩ = true ↔
        ∃ x ∈ l, jsStrictEq x (getPropertyValue r p) = true) ∧
    (∀ (r : JValue) (p : String) (v : JValue), (∀ l, v ≠ JValue.arr l) →
      evaluatePolicyCondition r ⟨p, "notContains", v⟩ =
        strIncludes (jsToString (getPropertyValue r p)) (jsToString v)) ∧
    (∀ (r : JValue) (p : String) (v : JValue),
      evaluatePolicyCondition r ⟨p, "greaterThan", v⟩ = true ↔
        ∃ a b, toNumber (getPropertyValue r p) = some a ∧ toNumber v = some b ∧ a ≤ b) ∧
    (∀ (r : JValue) (p : String) (v : JValue),
      evaluatePolicyCondition r ⟨p, "lessThan", v⟩ = true ↔
        ∃ a b, toNumber (getPropertyValue r p) = some a ∧ toNumber v = some b ∧ b ≤ a) ∧
    (∀ (r : JValue) (p : String) (v : JValue),
      evaluatePolicyCondition r ⟨p, "exists", v⟩ = true ↔
        getPropertyValue r p = JValue.undefined ∨ getPropertyValue r p = JValue.null) ∧
    (∀ (r : JValue) (p : String) (v : JValue),
      evaluatePolicyCondition r ⟨p, "notExists", v⟩ = true ↔
        ¬ (getPropertyValue r p = JValue.undefined ∨ getPropertyValue r p = JValue.null)) ∧
    (∀ (r : JValue) (p : String) (v : JValue) (op : String),
      op ∉ (["equals", "notEquals", "contains", "notContains", "greaterThan",
             "lessThan", "exists", "notExists"] : List String) →
      evaluatePolicyCondition r ⟨p, op, v⟩ = false) ∧
    (∀ (fields : List (String × JValue)) (k : String) (ps : List String),
      lookupField k fields = none →
      getPropParts (JValue.obj fields) (k :: ps) = JValue.undefined) := by
  refine ⟨?_, ?_, ?_, ?_, ?_, ?_, ?_, ?_, ?_, ?_, ?_, ?_⟩
  · intro r p v
    rfl
  · intro r p v
    rfl
  · intro r p l
    show (!(jsArrayIncludes l (getPropertyValue r p))) = true ↔ _
    simp [jsArrayIncludes, List.any_eq_true]
  · intro r p v hv
    cases v <;> first
      | rfl
      | exact absurd rfl (hv _)
  · intro r p l
    show jsArrayIncludes l (getPropertyValue r p) = true ↔ _
    simp [jsArrayIncludes, List.any_eq_true]
  · intro r p v hv
    cases v <;> first
      | rfl
      | exact absurd rfl (hv _)
  · intro r p v
    show jsNumLe (toNumber (getPropertyValue r p)) (toNumber v) = true ↔ _
    rcases toNumber (getPropertyValue r p) with _ | a <;>
      rcases toNumber v with _ | b <;> simp [jsNumLe]
  · intro r p v
    show jsNumGe (toNumber (getPropertyValue r p)) (toNumber v) = true ↔ _
    rcases toNumber (getPropertyValue r p) with _ | a <;>
      rcases toNumber v with _ | b <;> simp [jsNumGe]
  · intro r p v
    show (jsStrictEq (getPropertyValue r p) JValue.undefined ||
        jsStrictEq (getPropertyValue r p) JValue.null) = true ↔ _
    rw [Bool.or_eq_true, jsStrictEq_undef_iff, jsStrictEq_null_iff]
  · intro r p v
    show (!(jsStrictEq (getPropertyValue r p) JValue.undefined ||
        jsStrictEq (getPropertyValue r p) JValue.null)) = true ↔ _
    simp only [Bool.not_eq_true', Bool.or_eq_false_iff, Bool.eq_false_iff, Ne,
      jsStrictEq_undef_iff, jsStrictEq_null_iff, not_or]
    rw [Bool.or_eq_true, jsStrictEq_undef_iff, jsStrictEq_null_iff, not_or]
  · intro r p v op hop
    simp only [List.mem_cons, List.not_mem_nil, or_false, not_or] at hop
    obtain ⟨h1, h2, h3, h4, h5, h6, h7, h8⟩ := hop
    unfold evaluatePolicyCondition
    rw [if_neg h1, if_neg h2, if_neg h3, if_neg h4, if_neg h5, if_neg h6, if_neg h7, if_neg h8]
  · intro fields k ps h
    show getPropParts ((lookupField k fields).getD JValue.undefined) ps = JValue.undefined
    rw [h]
    exact getPropParts_undef ps

/-- Witness for C4: the unknown operator `regexMatch` yields no
violation, and a `contains` check against a non-array expected value
follows string inclusion. -/
theorem evaluatePolicyCondition_table_witness :
    ("regexMatch" ∉ (["equals", "notEquals", "contains", "notContains", "greaterThan",
        "lessThan", "exists", "notExists"] : List String)) ∧
    evaluatePolicyCondition (JValue.obj [("a", JValue.num 1)])
      ⟨"a", "regexMatch", JValue.num 1⟩ = false ∧
    (∀ l, JValue.str "1.2" ≠ JValue.arr l) ∧
    evaluatePolicyCondition (JValue.obj [("tls", JValue.str "tls1.2")])
      ⟨"tls", "contains", JValue.str "1.2"⟩ =
      !(strIncludes (jsToString (getPropertyValue
          (JValue.obj [("tls", JValue.str "tls1.2")]) "tls")) (jsToString (JValue.str "1.2"))) :=
  ⟨by decide,
   evaluatePolicyCondition_table.2.2.2.2.2.2.2.2.2.2.1 _ _ _ _ (by decide),
   fun l h => JValue.noConfusion h,
   evaluatePolicyCondition_table.2.2.2.1 _ _ _ (fun l h => JValue.noConfusion h)⟩

/-! ## Fix application: idempotence of `set` and `remove` -/

theorem lookupField_setField_self (k : String) (v : JValue) (fs : List (String × JValue)) :
    lookupField k (setField k v fs) = some v := by
  induction fs with
  | nil => simp [setField, lookupField]
  | cons kv rest ih =>
      obtain ⟨k', v'⟩ := kv
      by_cases h : k' = k
      · subst h
        simp [setField, lookupField]
      · simp [setField, lookupField, h, ih]

theorem setField_setField (k : String) (v w : JValue) (fs : List (String × JValue)) :
    setField k v (setField k w fs) = setField k v fs := by
  induction fs with
  | nil => simp [setField]
  | cons kv rest ih =>
      obtain ⟨k', v'⟩ := kv
      by_cases h : k' = k
      · subst h
        simp [setField]
      · simp [setField, h, ih]

theorem eraseField_eraseField (k : String) (fs : List (String × JValue)) :
    eraseField k (eraseField k fs) = eraseField k fs := by
  simp [eraseField, List.filter_filter]

theorem set_append_self (l1 : List JValue) (a b : JValue) (l2 : List JValue) :
    (l1 ++ a :: l2).set l1.length b = l1 ++ b :: l2 := by
  induction l1 with
  | nil => rfl
  | cons c cs ih => simp [List.set, ih]

theorem getD_set_self (es : List JValue) :
    ∀ i x, i < es.length → (es.set i x).getD i JValue.undefined = x := by
  induction es with
  | nil =>
      intro i x h
      exact absurd h (by simp)
  | cons e es ih =>
      intro i x h
      cases i with
      | zero => rfl
      | succ i =>
          show (es.set i x).getD i JValue.undefined = x
          exact ih i x (Nat.lt_of_succ_lt_succ h)

theorem getD_append_len (l1 : List JValue) (a : JValue) (l2 : List JValue) :
    (l1 ++ a :: l2).getD l1.length JValue.undefined = a := by
  induction l1 with
  | nil => rfl
  | cons c cs ih => simpa using ih

theorem arrSet_of_lt {es : List JValue} {i : Nat} (x : JValue) (h : i < es.length) :
    arrSet es i x = es.set i x := by
  unfold arrSet
  rw [if_pos h]

theorem arrSet_of_ge {es : List JValue} {i : Nat} (x : JValue) (h : ¬ i < es.length) :
    arrSet es i x = es ++ List.replicate (i - es.length) JValue.undefined ++ [x] := by
  unfold arrSet
  rw [if_neg h]

theorem lt_length_arrSet (es : List JValue) (i : Nat) (x : JValue) :
    i < (arrSet es i x).length := by
  by_cases h : i < es.length
  · rw [arrSet_of_lt x h]
    simpa using h
  · rw [arrSet_of_ge x h]
    simp only [List.length_append, List.length_replicate, List.length_cons, List.length_nil]
    omega

theorem getD_arrSet (es : List JValue) (i : Nat) (x : JValue) :
    (arrSet es i x).getD i JValue.undefined = x := by
  by_cases h : i < es.length
  · rw [arrSet_of_lt x h]
    exact getD_set_self es i x h
  · rw [arrSet_of_ge x h]
    have hlen : i = (es ++ List.replicate (i - es.length) JValue.undefined).length := by
      simp only [List.length_append, List.length_replicate]
      omega
    calc ((es ++ List.replicate (i - es.length) JValue.undefined) ++ [x]).getD i JValue.undefined
        = ((es ++ List.replicate (i - es.length) JValue.undefined) ++ x :: []).getD
            (es ++ List.replicate (i - es.length) JValue.undefined).length JValue.undefined := by
          rw [← hlen]
      _ = x := getD_append_len _ _ _

theorem arrSet_arrSet (es : List JValue) (i : Nat) (x : JValue) :
    arrSet (arrSet es i x) i x = arrSet es i x := by
  rw [arrSet_of_lt x (lt_length_arrSet es i x)]
  by_cases h : i < es.length
  · rw [arrSet_of_lt x h, List.set_set]
  · rw [arrSet_of_ge x h]
    have hlen : i = (es ++ List.replicate (i - es.length) JValue.undefined).length := by
      simp only [List.length_append, List.length_replicate]
      omega
    calc ((es ++ List.replicate (i - es.length) JValue.undefined) ++ [x]).set i x
        = ((es ++ List.replicate (i - es.length) JValue.undefined) ++ x :: []).set
            (es ++ List.replicate (i - es.length) JValue.undefined).length x := by
          rw [← hlen]
      _ = (es ++ List.replicate (i - es.length) JValue.undefined) ++ x :: [] :=
          set_append_self _ _ _ _

theorem truthy_of_objLike {v : JValue} (h : isObjLike v = true) : truthy v = true := by
  cases v <;> simp_all [isObjLike, truthy]

/-- The forced intermediate of `setPropertyValue` is always an object or
an array. -/
theorem objLike_forced (c : JValue) :
    isObjLike (if truthy c && isObjLike c then c else JValue.obj []) = true := by
  split
  · rename_i hcond
    exact (Bool.and_eq_true _ _ ▸ hcond).2
  · rfl

theorem truthy_and_objLike {w : JValue} (h : isObjLike w = true) :
    (truthy w && isObjLike w) = true := by
  rw [truthy_of_objLike h, h]
  rfl

theorem setProp_objLike (parts : List String) (x : JValue) :
    ∀ {v : JValue}, isObjLike v = true → isObjLike (setProp v parts x) = true := by
  intro v h
  cases parts with
  | nil => simpa [setProp]
  | cons p rest =>
      cases rest with
      | nil =>
          cases v with
          | obj fs => simp [setProp, isObjLike]
          | arr es =>
              rcases hpi : parseIndex p with _ | i <;> simp [setProp, isObjLike, hpi]
          | undefined => simp [isObjLike] at h
          | null => simp [isObjLike] at h
          | bool b => simp [isObjLike] at h
          | num n => simp [isObjLike] at h
          | str s => simp [isObjLike] at h
      | cons q rest2 =>
          cases v with
          | obj fs => simp [setProp, isObjLike]
          | arr es =>
              rcases hpi : parseIndex p with _ | i <;> simp [setProp, isObjLike, hpi]
          | undefined => simp [isObjLike] at h
          | null => simp [isObjLike] at h
          | bool b => simp [isObjLike] at h
          | num n => simp [isObjLike] at h
          | str s => simp [isObjLike] at h

theorem setProp_idem : ∀ (parts : List String) (v x : JValue),
    setProp (setProp v parts x) parts x = setProp v parts x := by
  intro parts
  induction parts with
  | nil => intro v x; rfl
  | cons p rest ih =>
      intro v x
      cases rest with
      | nil =>
          cases v with
          | obj fs =>
              show JValue.obj (setField p x (setField p x fs)) = JValue.obj (setField p x fs)
              rw [setField_setField]
          | arr es =>
              rcases hpi : parseIndex p with _ | i
              · simp [setProp, hpi]
              · simp [setProp, hpi, arrSet_arrSet]
          | undefined => rfl
          | null => rfl
          | bool b => rfl
          | num n => rfl
          | str s => rfl
      | cons q rest2 =>
          cases v with
          | obj fs =>
              simp only [setProp]
              rw [lookupField_setField_self]
              simp only [Option.getD_some]
              rw [if_pos (truthy_and_objLike (setProp_objLike _ _ (objLike_forced _)))]
              rw [ih, setField_setField]
          | arr es =>
              rcases hpi : parseIndex p with _ | i
              · simp [setProp, hpi]
              · simp only [setProp, hpi]
                rw [getD_arrSet]
                rw [if_pos (truthy_and_objLike (setProp_objLike _ _ (objLike_forced _)))]
                rw [ih, arrSet_arrSet]
          | undefined => rfl
          | null => rfl
          | bool b => rfl
          | num n => rfl
          | str s => rfl

theorem truthy_removeProp (parts : List String) :
    ∀ {v : JValue}, truthy v = true → truthy (removeProp v parts) = true := by
  intro v h
  cases parts with
  | nil => simpa [removeProp]
  | cons p rest =>
      cases rest with
      | nil =>
          cases v with
          | obj fs => simp [removeProp, truthy]
          | arr es =>
              rcases hpi : parseIndex p with _ | i
              · simp [removeProp, truthy, hpi]
              · by_cases hlt : i < es.length <;> simp [removeProp, hpi, hlt, truthy]
          | undefined => simpa [removeProp]
          | null => simpa [removeProp]
          | bool b => simpa [removeProp]
          | num n => simpa [removeProp]
          | str s => simpa [removeProp]
      | cons q rest2 =>
          cases v with
          | obj fs =>
              rcases hlk : lookupField p fs with _ | child
              · simpa [removeProp, hlk]
              · by_cases htr : truthy child = true
                · simp only [removeProp, hlk]
                  rw [if_pos htr]
                  rfl
                · simp only [removeProp, hlk]
                  rw [if_neg htr]
                  exact h
          | arr es =>
              rcases hpi : parseIndex p with _ | i
              · simpa [removeProp, hpi]
              · by_cases htr : truthy (es.getD i JValue.undefined) = true
                · simp only [removeProp, hpi]
                  rw [if_pos htr]
                  rfl
                · simp only [removeProp, hpi]
                  rw [if_neg htr]
                  exact h
          | undefined => simpa [removeProp]
          | null => simpa [removeProp]
          | bool b => simpa [removeProp]
          | num n => simpa [removeProp]
          | str s => simpa [removeProp]

theorem getD_eq_undef_of_le {es : List JValue} {i : Nat} (h : es.length ≤ i) :
    es.getD i JValue.undefined = JValue.undefined := by
  unfold List.getD
  rw [List.get?_eq_none.mpr h]
  rfl

theorem removeProp_idem : ∀ (parts : List String) (v : JValue),
    removeProp (removeProp v parts) parts = removeProp v parts := by
  intro parts
  induction parts with
  | nil => intro v; rfl
  | cons p rest ih =>
      intro v
      cases rest with
      | nil =>
          cases v with
          | obj fs =>
              show JValue.obj (eraseField p (eraseField p fs)) = JValue.obj (eraseField p fs)
              rw [eraseField_eraseField]
          | arr es =>
              rcases hpi : parseIndex p with _ | i
              · simp [removeProp, hpi]
              · by_cases hlt : i < es.length
                · simp [removeProp, hpi, hlt, List.length_set, List.set_set]
                · simp [removeProp, hpi, hlt]
          | undefined => rfl
          | null => rfl
          | bool b => rfl
          | num n => rfl
          | str s => rfl
      | cons q rest2 =>
          cases v with
          | obj fs =>
              rcases hlk : lookupField p fs with _ | child
              · simp [removeProp, hlk]
              · by_cases htr : truthy child = true
                · have hw : truthy (removeProp child (q :: rest2)) = true :=
                    truthy_removeProp _ htr
                  simp only [removeProp, hlk]
                  rw [if_pos htr]
                  simp only [removeProp, lookupField_setField_self]
                  rw [if_pos hw, ih, setField_setField]
                · simp only [removeProp, hlk, if_neg htr]
          | arr es =>
              rcases hpi : parseIndex p with _ | i
              · simp [removeProp, hpi]
              · by_cases htr : truthy (es.getD i JValue.undefined) = true
                · have hlen : i < es.length := by
                    by_contra hge
                    rw [getD_eq_undef_of_le (Nat.le_of_not_lt hge)] at htr
                    exact Bool.false_ne_true htr
                  have hw : truthy (removeProp (es.getD i JValue.undefined) (q :: rest2)) = true :=
                    truthy_removeProp _ htr
                  simp only [removeProp, hpi]
                  rw [if_pos htr]
                  simp only [removeProp, hpi]
                  rw [getD_set_self es i _ hlen, if_pos hw, ih, List.set_set]
                · simp only [removeProp, hpi, if_neg htr]
          | undefined => rfl
          | null => rfl
          | bool b => rfl
          | num n => rfl
          | str s => rfl

/-- C5 counterexample: the `add` fix is not idempotent — on a resource
whose targeted leaf is an array, each application appends the value
again, so applying the fix twice differs from applying it once. -/
theorem applyManualFix_add_not_idempotent :
    applyManualFix (applyManualFix arrayLeafResource addToArrayFix) addToArrayFix ≠
      applyManualFix arrayLeafResource addToArrayFix := by
  have h1 : applyManualFix arrayLeafResource addToArrayFix =
      JValue.obj [("a", JValue.arr [JValue.num 1, JValue.num 2])] := rfl
  have h2 : applyManualFix (applyManualFix arrayLeafResource addToArrayFix) addToArrayFix =
      JValue.obj [("a", JValue.arr [JValue.num 1, JValue.num 2, JValue.num 2])] := rfl
  rw [h2, h1]
  simp

/-- C5 (amended): applying the same `set` fix or the same `remove` fix
twice leaves the resource in the same end state as applying it once (the
`add` action, which appends to array leaves, is excluded). -/
theorem applyManualFix_set_remove_idempotent :
    (∀ (resource : JValue) (p : String) (v : JValue),
      applyManualFix (applyManualFix resource ⟨"set", p, v⟩) ⟨"set", p, v⟩ =
        applyManualFix resource ⟨"set", p, v⟩) ∧
    (∀ (resource : JValue) (p : String) (v : JValue),
      applyManualFix (applyManualFix resource ⟨"remove", p, v⟩) ⟨"remove", p, v⟩ =
        applyManualFix resource ⟨"remove", p, v⟩) := by
  constructor
  · intro r p v
    show setProp (setProp r (splitOnDot p) v) (splitOnDot p) v = setProp r (splitOnDot p) v
    exact setProp_idem _ _ _
  · intro r p v
    show removeProp (removeProp r (splitOnDot p)) (splitOnDot p) = removeProp r (splitOnDot p)
    exact removeProp_idem _ _

/-- Witness for C6: the accuracy-metrics specification instantiated at the
concrete non-empty list `[textPassDetection]`. -/
theorem calculateAccuracyMetrics_spec_witness :
    [textPassDetection] ≠ ([] : List DetectionResult) ∧
    (calculateAccuracyMetrics [textPassDetection]).overallConfidence.toRat =
      (([textPassDetection].map (fun r => r.confidence.toRat)).sum /
        (([textPassDetection].length : Nat) : ℚ)) :=
  ⟨by simp, (calculateAccuracyMetrics_spec.2 [textPassDetection] (by simp)).1⟩

end AzureArch
